import Mathlib

/-!
DigitalFirePlace: the fire animation engine.

A shallow embedding of `src/fire_animation.cpp` (with the constants of
`src/fireplace_config.h`) and theorems about it.

Modelling conventions.

* `uint8_t` and `uint32_t` values are natural numbers; every place where the
  C++ code narrows or subtracts unsigned values carries its `% 2^w`.
* `int` values are mathematical integers: every `int` the code computes has
  magnitude at most `255 * 255`, far inside a 32-bit `int`.
* `float` values are IEEE 754 binary32 numbers, `Binary32`, and every float
  operation is the exact operation followed by rounding to nearest, ties to
  even.  All float values that occur lie between `2^-8` and `2^10` in
  magnitude or are zero, so overflow and subnormal numbers play no role.
  `static_cast<int>` of a float truncates toward zero.
* `millis()` is the argument `now`; the strip is the list of calls made on
  it, in order; `random(80, 140)` is the sequence `rand` of values that
  successive calls return, consumed in order.  The range of these values is
  that of the Arduino core function, modelled as `random`.
-/

namespace FireplaceConfig

/-- Lower end of the enforced brightness range (`kMinBrightness`). -/
def kMinBrightness : Nat := 10

/-- Upper end of the enforced brightness range (`kMaxBrightness`). -/
def kMaxBrightness : Nat := 255

/-- Minimum time between two rendered frames (`kAnimationFrameMs`). -/
def kAnimationFrameMs : Nat := 35

end FireplaceConfig

namespace FireAnimation

open FireplaceConfig

/-- Brightness clamp `clampBrightness(int value)`: non-positive values are
off, everything else is forced into the configured range. -/
def clampBrightness (value : Int) : Nat :=
  if value ≤ 0 then 0
  else if value < (kMinBrightness : Int) then kMinBrightness
  else if value > (kMaxBrightness : Int) then kMaxBrightness
  else (value % 256).toNat

/-! ### Binary32 arithmetic -/

/-- A finite binary32 value `mant * 2^exp`.  Values produced by
`roundQuotient` are normalised: `mant = 0`, or `2^23 <= |mant| < 2^24`. -/
structure Binary32 where
  mant : Int
  exp : Int
deriving DecidableEq, Repr

/-- Number of binary digits of `n`; `fuel` bounds the recursion and `n` itself
is always enough. -/
def bitLength : Nat → Nat → Nat
  | 0, _ => 0
  | fuel + 1, n => if n = 0 then 0 else bitLength fuel (n / 2) + 1

/-- Exponent of the leading bit of the positive rational `a / b`: the integer
`e` with `2^e <= a / b < 2^(e+1)`. -/
def floorLog2 (a b : Nat) : Int :=
  let e0 : Int := (bitLength a a : Int) - (bitLength b b : Int)
  if 0 ≤ e0 then (if a < b * 2 ^ e0.toNat then e0 - 1 else e0)
  else (if a * 2 ^ (-e0).toNat < b then e0 - 1 else e0)

/-- The binary32 value nearest to the rational `a / b` (with `b > 0`), ties
to even: the quotient is scaled so that its integer part has 24 bits, the
integer part `q` is kept, and the remainder `r` decides the rounding. -/
def roundQuotient (a : Int) (b : Nat) : Binary32 :=
  if a = 0 then { mant := 0, exp := 0 } else
    let n := a.natAbs
    let s : Int := floorLog2 n b - 23
    let num := if s ≤ 0 then n * 2 ^ (-s).toNat else n
    let den := if s ≤ 0 then b else b * 2 ^ s.toNat
    let q := num / den
    let r := num % den
    let m := if 2 * r < den then q else if den < 2 * r then q + 1
      else if q % 2 = 0 then q else q + 1
    let m1 : Nat := if m = 16777216 then 8388608 else m
    let s1 : Int := if m = 16777216 then s + 1 else s
    { mant := if a < 0 then -(m1 : Int) else (m1 : Int), exp := s1 }

namespace Binary32

/-- The rational number a binary32 value stands for. -/
def toRat (x : Binary32) : ℚ := (x.mant : ℚ) * (2 : ℚ) ^ x.exp

/-- Rounding of the exact dyadic value `m * 2^e`. -/
def ofDyadic (m e : Int) : Binary32 :=
  if 0 ≤ e then roundQuotient (m * 2 ^ e.toNat) 1 else roundQuotient m (2 ^ (-e).toNat)

/-- Conversion of an `int` to `float`. -/
def ofInt (n : Int) : Binary32 := roundQuotient n 1

/-- Float addition: the exact sum, rounded. -/
def add (x y : Binary32) : Binary32 :=
  let e := min x.exp y.exp
  ofDyadic (x.mant * 2 ^ (x.exp - e).toNat + y.mant * 2 ^ (y.exp - e).toNat) e

/-- Float subtraction: the exact difference, rounded. -/
def sub (x y : Binary32) : Binary32 :=
  let e := min x.exp y.exp
  ofDyadic (x.mant * 2 ^ (x.exp - e).toNat - y.mant * 2 ^ (y.exp - e).toNat) e

/-- Float multiplication: the exact product, rounded. -/
def mul (x y : Binary32) : Binary32 :=
  ofDyadic (x.mant * y.mant) (x.exp + y.exp)

/-- Float division by a non-zero value: the exact quotient, rounded. -/
def div (x y : Binary32) : Binary32 :=
  let sgn : Int := if y.mant < 0 then -1 else 1
  let e := x.exp - y.exp
  if 0 ≤ e then roundQuotient (sgn * x.mant * 2 ^ e.toNat) y.mant.natAbs
  else roundQuotient (sgn * x.mant) (y.mant.natAbs * 2 ^ (-e).toNat)

end Binary32

/-! ### The animation -/

/-- Per-channel blend weights (`struct ColorWeights`, three `float`s). -/
structure ColorWeights where
  red : Binary32
  green : Binary32
  blue : Binary32
deriving DecidableEq, Repr

/-- The warm end of the blend, `warm{1.0f, 0.7f, 0.25f}`: each literal is the
binary32 value nearest to the decimal (`0.7f` is `11744051 * 2^-24`). -/
def warm : ColorWeights :=
  { red := roundQuotient 1 1, green := roundQuotient 7 10, blue := roundQuotient 1 4 }

/-- The cool end of the blend, `cool{0.5f, 0.7f, 1.0f}`. -/
def cool : ColorWeights :=
  { red := roundQuotient 1 2, green := roundQuotient 7 10, blue := roundQuotient 1 1 }

/-- Blend weights `colorFromPercent(uint8_t colorPercent)`:
`t = static_cast<float>(colorPercent) / 100.0f` and, per channel,
`warm.c + (cool.c - warm.c) * t`, every operation rounded to binary32. -/
def colorFromPercent (colorPercent : Nat) : ColorWeights :=
  let t := Binary32.div (Binary32.ofInt colorPercent) (Binary32.ofInt 100)
  { red := Binary32.add warm.red (Binary32.mul (Binary32.sub cool.red warm.red) t)
    green := Binary32.add warm.green (Binary32.mul (Binary32.sub cool.green warm.green) t)
    blue := Binary32.add warm.blue (Binary32.mul (Binary32.sub cool.blue warm.blue) t) }

/-- Animation state (`struct State`): `baseBrightness` is a `uint8_t`,
`lastFrameMs` a `uint32_t`. -/
structure State where
  baseBrightness : Nat
  lastFrameMs : Nat
deriving DecidableEq, Repr

/-- One call made on the `Adafruit_NeoPixel` strip: `strip.begin()`,
`strip.setBrightness(b)`, `strip.setPixelColor(i, strip.Color(r, g, b))` and
`strip.show()`, the last one under the name `flush`.  `setPixelColor` records
the pixel index and the three `int` arguments handed to `strip.Color`.  The
read-only query `strip.numPixels()` is not recorded. -/
inductive StripCall where
  | begin
  | setBrightness (brightness : Nat)
  | setPixelColor (index : Nat) (red green blue : Int)
  | flush
deriving DecidableEq, Repr

/-- Unsigned 32-bit subtraction `a - b` of two `uint32_t` values. -/
def sub32 (a b : Nat) : Nat :=
  (a % 4294967296 + 4294967296 - b % 4294967296) % 4294967296

/-- Conversion `static_cast<int>(x)` of a float: truncation toward zero. -/
def truncToInt (x : Binary32) : Int :=
  if 0 ≤ x.exp then x.mant * 2 ^ x.exp.toNat else Int.tdiv x.mant (2 ^ (-x.exp).toNat)

/-- Channel clamp of the render loop: `if (c > 255) c = 255;` followed by
`if (c < 0) c = 0;`. -/
def clampChannel (c : Int) : Int :=
  let c1 := if c > 255 then 255 else c
  if c1 < 0 then 0 else c1

/-- Brightness easing of `update` (the `if`/`else if` on
`state.baseBrightness`), with the narrowing of the `int` result to
`uint8_t`. -/
def easeBrightness (baseBrightness targetBrightness : Nat) : Nat :=
  if baseBrightness < targetBrightness then
    let next : Int := (baseBrightness : Int) + 2
    ((if next > (targetBrightness : Int) then (targetBrightness : Int) else next) % 256).toNat
  else if baseBrightness > targetBrightness then
    let next : Int := (baseBrightness : Int) - 2
    ((if next < (targetBrightness : Int) then (targetBrightness : Int) else next) % 256).toNat
  else baseBrightness

/-- Body of the render loop for one pixel: the three clamped channel values
computed from the post-easing brightness, the blend weights and the value
`draw` returned by `random(80, 140)`.  `brightnessWithFlicker` is an `int`
(integer division); in `brightnessWithFlicker * weights.red` it is converted
to `float`, the product is rounded to binary32 and then truncated. -/
def pixelChannels (baseBrightness : Nat) (weights : ColorWeights) (draw : Nat) :
    Int × Int × Int :=
  let flicker : Nat := draw % 256
  let brightnessWithFlicker : Int := ((baseBrightness : Int) * (flicker : Int)).tdiv 100
  let red := truncToInt (Binary32.mul (Binary32.ofInt brightnessWithFlicker) weights.red)
  let green := truncToInt (Binary32.mul (Binary32.ofInt brightnessWithFlicker) weights.green)
  let blue := truncToInt (Binary32.mul (Binary32.ofInt brightnessWithFlicker) weights.blue)
  (clampChannel red, clampChannel green, clampChannel blue)

/-- The render loop `for (uint16_t i = 0; i < strip.numPixels(); ++i)`:
`remaining` iterations are left, `i` is the loop counter and `drawn` the
number of random values consumed so far.  Returns the calls made and the
final number of random values consumed.  `numPixels()` is a `uint16_t`, so
the counter never wraps. -/
def renderLoop (baseBrightness : Nat) (weights : ColorWeights) (rand : Nat → Nat) :
    Nat → Nat → Nat → List StripCall × Nat
  | 0, _, drawn => ([], drawn)
  | remaining + 1, i, drawn =>
    let c := pixelChannels baseBrightness weights (rand drawn)
    let rest := renderLoop baseBrightness weights rand remaining (i + 1) (drawn + 1)
    (StripCall.setPixelColor i c.1 c.2.1 c.2.2 :: rest.1, rest.2)

/-- What one call of `update` (or `begin`) did: the state it leaves, the
calls it made on the strip in order, and how many random values it drew. -/
structure Outcome where
  state : State
  calls : List StripCall
  draws : Nat

/-- Whether the frame gate lets a frame through: the negation of
`now - state.lastFrameMs < kAnimationFrameMs`. -/
def eligible (state : State) (now : Nat) : Bool :=
  !(decide (sub32 now state.lastFrameMs < kAnimationFrameMs))

/-- The call `FireAnimation::update(strip, state, targetBrightness, colorPercent)`
on a strip of `numPixels` pixels, with `millis()` returning `now` and the
successive `random(80, 140)` calls returning `rand 0`, `rand 1`, ... -/
def update (numPixels : Nat) (rand : Nat → Nat) (now : Nat) (state : State)
    (targetBrightness colorPercent : Nat) : Outcome :=
  if sub32 now state.lastFrameMs < kAnimationFrameMs then
    { state := state, calls := [], draws := 0 }
  else
    let baseBrightness := easeBrightness state.baseBrightness targetBrightness
    let weights := colorFromPercent colorPercent
    let loop := renderLoop baseBrightness weights rand numPixels 0 0
    { state := { baseBrightness := baseBrightness, lastFrameMs := now }
      calls := StripCall.setBrightness (clampBrightness baseBrightness) :: loop.1
        ++ [StripCall.flush]
      draws := loop.2 }

/-- The call `FireAnimation::begin(strip, initialBrightness)`. -/
def begin (initialBrightness : Nat) : List StripCall :=
  [StripCall.begin, StripCall.setBrightness (clampBrightness initialBrightness),
    StripCall.flush]

/-- The inputs of one call of `update` that vary from call to call while the
target brightness is held: the clock value, the colour percentage and the
random values handed out during the call. -/
structure Frame where
  now : Nat
  colorPercent : Nat
  rand : Nat → Nat

/-- State left by a sequence of `update` calls, one per frame and in order,
all with the same target brightness. -/
def runFrames (numPixels targetBrightness : Nat) : State → List Frame → State
  | state, [] => state
  | state, f :: fs =>
    runFrames numPixels targetBrightness
      (update numPixels f.rand f.now state targetBrightness f.colorPercent).state fs

/-- Every call of the sequence passes the frame gate when it is made. -/
def allEligible (numPixels targetBrightness : Nat) : State → List Frame → Bool
  | _, [] => true
  | state, f :: fs =>
    eligible state f.now &&
      allEligible numPixels targetBrightness
        (update numPixels f.rand f.now state targetBrightness f.colorPercent).state fs

/-- The Arduino core function `random(howsmall, howbig)` that the render loop
calls as `random(80, 140)`.  It belongs to the Arduino core, not to this
repository; the model is the core's definition: `howsmall` when
`howsmall >= howbig`, otherwise `howsmall + raw % (howbig - howsmall)`, where
`raw` is the non-negative value produced by the underlying generator.  The
upper bound is exclusive. -/
def random (raw : Nat) (howsmall howbig : Int) : Int :=
  if howsmall ≥ howbig then howsmall
  else howsmall + (raw : Int) % (howbig - howsmall)

/-- The flicker of one pixel, `const uint8_t flicker = random(80, 140);`, from
the value `raw` of the underlying generator. -/
def drawFlicker (raw : Nat) : Nat :=
  ((random raw 80 140) % 256).toNat

/-! ### The interpolation in exact arithmetic -/

/-- Blend weights as exact rational numbers. -/
structure ColorWeightsExact where
  red : ℚ
  green : ℚ
  blue : ℚ
deriving DecidableEq

/-- The blend as the spec words it, in exact arithmetic: the linear
interpolation between warm `(1.0, 0.7, 0.25)` at 0% and cool
`(0.5, 0.7, 1.0)` at 100%.  It is the real-number reading of
`colorFromPercent`, kept for comparison with the binary32 values the code
computes. -/
def colorFromPercentExact (colorPercent : Nat) : ColorWeightsExact :=
  let t : ℚ := (colorPercent : ℚ) / 100
  { red := 1 + (1 / 2 - 1) * t
    green := 7 / 10 + (7 / 10 - 7 / 10) * t
    blue := 1 / 4 + (1 - 1 / 4) * t }

end FireAnimation

namespace FireAnimation

open FireplaceConfig

/-! ## The frame gate -/

/-- The model's 32-bit subtraction is subtraction modulo `2^32`. -/
theorem sub32_eq_emod (a b : Nat) :
    ((sub32 a b : Nat) : Int) = ((a : Int) - (b : Int)) % 4294967296 := by
  unfold sub32
  omega

/-- A call inside the frame interval takes the early `return`. -/
theorem update_of_gated (numPixels : Nat) (rand : Nat → Nat) (now : Nat) (state : State)
    (targetBrightness colorPercent : Nat)
    (h : ((now : Int) - (state.lastFrameMs : Int)) % 4294967296 < 35) :
    update numPixels rand now state targetBrightness colorPercent =
      { state := state, calls := [], draws := 0 } := by
  have hs := sub32_eq_emod now state.lastFrameMs
  have hlt : sub32 now state.lastFrameMs < kAnimationFrameMs := by
    unfold kAnimationFrameMs
    omega
  simp [update, hlt]

/-- A call outside the frame interval runs the whole body. -/
theorem update_of_eligible (numPixels : Nat) (rand : Nat → Nat) (now : Nat) (state : State)
    (targetBrightness colorPercent : Nat)
    (h : 35 ≤ ((now : Int) - (state.lastFrameMs : Int)) % 4294967296) :
    update numPixels rand now state targetBrightness colorPercent =
      { state := { baseBrightness := easeBrightness state.baseBrightness targetBrightness
                   lastFrameMs := now }
        calls := StripCall.setBrightness
            (clampBrightness (easeBrightness state.baseBrightness targetBrightness))
          :: (renderLoop (easeBrightness state.baseBrightness targetBrightness)
                (colorFromPercent colorPercent) rand numPixels 0 0).1 ++ [StripCall.flush]
        draws := (renderLoop (easeBrightness state.baseBrightness targetBrightness)
                (colorFromPercent colorPercent) rand numPixels 0 0).2 } := by
  have hs := sub32_eq_emod now state.lastFrameMs
  have hlt : ¬ sub32 now state.lastFrameMs < kAnimationFrameMs := by
    unfold kAnimationFrameMs
    omega
  simp [update, hlt]

/-! ## The render loop -/

/-- The render loop writes pixels `i, i+1, ...` in order, pixel `i + k` from
the draw number `drawn + k`, and consumes one draw per pixel. -/
theorem renderLoop_eq (baseBrightness : Nat) (weights : ColorWeights) (rand : Nat → Nat)
    (n i drawn : Nat) :
    renderLoop baseBrightness weights rand n i drawn =
      ((List.range n).map (fun k =>
          StripCall.setPixelColor (i + k)
            (pixelChannels baseBrightness weights (rand (drawn + k))).1
            (pixelChannels baseBrightness weights (rand (drawn + k))).2.1
            (pixelChannels baseBrightness weights (rand (drawn + k))).2.2),
        drawn + n) := by
  induction n generalizing i drawn with
  | zero => simp [renderLoop]
  | succ n ih =>
    rw [renderLoop, ih, List.range_succ_eq_map]
    simp [List.map_map, Function.comp_def, Nat.add_assoc, Nat.add_comm 1]

/-- The render loop never flushes the strip. -/
theorem flush_not_mem_renderLoop (baseBrightness : Nat) (weights : ColorWeights)
    (rand : Nat → Nat) (n i drawn : Nat) :
    StripCall.flush ∉ (renderLoop baseBrightness weights rand n i drawn).1 := by
  rw [renderLoop_eq]
  simp

end FireAnimation

namespace FireAnimation

open FireplaceConfig

/-- C1: a call of `update` made while `(now - state.lastFrameMs) mod 2^32` is
below `kAnimationFrameMs` (35) leaves `baseBrightness` and `lastFrameMs`
unchanged, makes no call on the strip and draws no random number. -/
theorem update_frame_gate_noop (numPixels : Nat) (rand : Nat → Nat) (now : Nat)
    (state : State) (targetBrightness colorPercent : Nat)
    (h : ((now : Int) - (state.lastFrameMs : Int)) % 4294967296 < (kAnimationFrameMs : Int)) :
    (update numPixels rand now state targetBrightness colorPercent).state = state ∧
    (update numPixels rand now state targetBrightness colorPercent).calls = [] ∧
    (update numPixels rand now state targetBrightness colorPercent).draws = 0 := by
  have h35 : ((now : Int) - (state.lastFrameMs : Int)) % 4294967296 < 35 := by
    simpa [kAnimationFrameMs] using h
  rw [update_of_gated numPixels rand now state targetBrightness colorPercent h35]
  exact ⟨rfl, rfl, rfl⟩

/-- Witness for C1: 34 ms after a frame at time 1000, on a 10-pixel strip. -/
theorem update_frame_gate_noop_witness :
    (((1034 : Nat) : Int) - ((1000 : Nat) : Int)) % 4294967296 < (kAnimationFrameMs : Int) ∧
    (update 10 (fun _ => 100) 1034 { baseBrightness := 40, lastFrameMs := 1000 } 200 30).state
      = { baseBrightness := 40, lastFrameMs := 1000 } ∧
    (update 10 (fun _ => 100) 1034 { baseBrightness := 40, lastFrameMs := 1000 } 200 30).calls
      = [] ∧
    (update 10 (fun _ => 100) 1034 { baseBrightness := 40, lastFrameMs := 1000 } 200 30).draws
      = 0 :=
  ⟨by decide,
   update_frame_gate_noop 10 (fun _ => 100) 1034 { baseBrightness := 40, lastFrameMs := 1000 }
     200 30 (by decide)⟩

/-- C2: when the call at `t1` is eligible and `(t2 - t1) mod 2^32 < 35`, the
first call flushes the strip exactly once and sets `lastFrameMs = t1`, the
second call is a no-op, and after both calls `lastFrameMs` is `t1`,
`baseBrightness` is what the first call left and the strip has been flushed
exactly once. -/
theorem update_twice_renders_once (numPixels : Nat) (rand1 rand2 : Nat → Nat) (t1 t2 : Nat)
    (state : State) (target1 color1 target2 color2 : Nat)
    (h1 : (kAnimationFrameMs : Int) ≤ ((t1 : Int) - (state.lastFrameMs : Int)) % 4294967296)
    (h2 : ((t2 : Int) - (t1 : Int)) % 4294967296 < (kAnimationFrameMs : Int)) :
    let first := update numPixels rand1 t1 state target1 color1
    let second := update numPixels rand2 t2 first.state target2 color2
    first.calls.count StripCall.flush = 1 ∧
    first.state.lastFrameMs = t1 ∧
    second.state = first.state ∧ second.calls = [] ∧ second.draws = 0 ∧
    second.state.lastFrameMs = t1 ∧
    second.state.baseBrightness = first.state.baseBrightness ∧
    (first.calls ++ second.calls).count StripCall.flush = 1 := by
  intro first second
  have h1' : 35 ≤ ((t1 : Int) - (state.lastFrameMs : Int)) % 4294967296 := by
    simpa [kAnimationFrameMs] using h1
  have hfirst := update_of_eligible numPixels rand1 t1 state target1 color1 h1'
  have hlast : first.state.lastFrameMs = t1 := by
    show (update numPixels rand1 t1 state target1 color1).state.lastFrameMs = t1
    rw [hfirst]
  have h2' : ((t2 : Int) - (first.state.lastFrameMs : Int)) % 4294967296 < 35 := by
    rw [hlast]
    simpa [kAnimationFrameMs] using h2
  have hsecond := update_of_gated numPixels rand2 t2 first.state target2 color2 h2'
  have hcount : first.calls.count StripCall.flush = 1 := by
    show (update numPixels rand1 t1 state target1 color1).calls.count StripCall.flush = 1
    rw [hfirst]
    have hloop := flush_not_mem_renderLoop
      (easeBrightness state.baseBrightness target1) (colorFromPercent color1) rand1 numPixels 0 0
    simp [List.count_cons, List.count_append, List.count_eq_zero_of_not_mem hloop]
  have hs : second = { state := first.state, calls := [], draws := 0 } := hsecond
  refine ⟨hcount, hlast, ?_, ?_, ?_, ?_, ?_, ?_⟩
  · rw [hs]
  · rw [hs]
  · rw [hs]
  · rw [hs]; exact hlast
  · rw [hs]
  · rw [hs]; simpa using hcount

/-- Witness for C2: a frame at time 35 and a second call 34 ms later. -/
theorem update_twice_renders_once_witness :
    ((kAnimationFrameMs : Int) ≤ (((35 : Nat) : Int) - ((0 : Nat) : Int)) % 4294967296) ∧
    ((((69 : Nat) : Int) - ((35 : Nat) : Int)) % 4294967296 < (kAnimationFrameMs : Int)) ∧
    (let first := update 3 (fun _ => 90) 35 { baseBrightness := 0, lastFrameMs := 0 } 100 0
     let second := update 3 (fun _ => 120) 69 first.state 100 0
     first.calls.count StripCall.flush = 1 ∧
     first.state.lastFrameMs = 35 ∧
     second.state = first.state ∧ second.calls = [] ∧ second.draws = 0 ∧
     second.state.lastFrameMs = 35 ∧
     second.state.baseBrightness = first.state.baseBrightness ∧
     (first.calls ++ second.calls).count StripCall.flush = 1) :=
  ⟨by decide, by decide,
   update_twice_renders_once 3 (fun _ => 90) (fun _ => 120) 35 69
     { baseBrightness := 0, lastFrameMs := 0 } 100 0 100 0 (by decide) (by decide)⟩

/-- C3: the frame gate compares the unsigned 32-bit difference: `update`
renders a frame (flushes the strip) exactly when
`(now - lastFrameMs) mod 2^32 >= 35`, also when the clock has wrapped. With
`lastFrameMs = 2^32 - 10`, `now = 30` renders and `now = 20` does not. -/
theorem frame_gate_wraparound_safe :
    (∀ (numPixels : Nat) (rand : Nat → Nat) (now : Nat) (state : State)
        (targetBrightness colorPercent : Nat),
      (StripCall.flush ∈ (update numPixels rand now state targetBrightness colorPercent).calls
        ↔ (kAnimationFrameMs : Int) ≤
            ((now : Int) - (state.lastFrameMs : Int)) % 4294967296) ∧
      ((update numPixels rand now state targetBrightness colorPercent).state.lastFrameMs = now
        ∨ (update numPixels rand now state targetBrightness colorPercent).state = state)) ∧
    (∀ (numPixels : Nat) (rand : Nat → Nat) (baseBrightness targetBrightness colorPercent : Nat),
      StripCall.flush ∈ (update numPixels rand 30
          { baseBrightness := baseBrightness, lastFrameMs := 4294967286 }
          targetBrightness colorPercent).calls ∧
      (update numPixels rand 20
          { baseBrightness := baseBrightness, lastFrameMs := 4294967286 }
          targetBrightness colorPercent).calls = []) := by
  have key : ∀ (numPixels : Nat) (rand : Nat → Nat) (now : Nat) (state : State)
      (targetBrightness colorPercent : Nat),
      (StripCall.flush ∈ (update numPixels rand now state targetBrightness colorPercent).calls
        ↔ (kAnimationFrameMs : Int) ≤
            ((now : Int) - (state.lastFrameMs : Int)) % 4294967296) ∧
      ((update numPixels rand now state targetBrightness colorPercent).state.lastFrameMs = now
        ∨ (update numPixels rand now state targetBrightness colorPercent).state = state) := by
    intro numPixels rand now state targetBrightness colorPercent
    by_cases h : 35 ≤ ((now : Int) - (state.lastFrameMs : Int)) % 4294967296
    · rw [update_of_eligible numPixels rand now state targetBrightness colorPercent h]
      simp [kAnimationFrameMs, h]
    · have h' : ((now : Int) - (state.lastFrameMs : Int)) % 4294967296 < 35 := by omega
      rw [update_of_gated numPixels rand now state targetBrightness colorPercent h']
      simp [kAnimationFrameMs, h]
  refine ⟨key, ?_⟩
  intro numPixels rand baseBrightness targetBrightness colorPercent
  constructor
  · exact (key numPixels rand 30 { baseBrightness := baseBrightness, lastFrameMs := 4294967286 }
      targetBrightness colorPercent).1.2
      (show (kAnimationFrameMs : Int) ≤
        (((30 : Nat) : Int) - ((4294967286 : Nat) : Int)) % 4294967296 from by decide)
  · rw [update_of_gated numPixels rand 20
      { baseBrightness := baseBrightness, lastFrameMs := 4294967286 }
      targetBrightness colorPercent
      (show (((20 : Nat) : Int) - ((4294967286 : Nat) : Int)) % 4294967296 < 35 from by decide)]

end FireAnimation

namespace FireAnimation

open FireplaceConfig

/-! ## Brightness easing -/

/-- One easing step on `uint8_t` values, in closed form. -/
theorem easeBrightness_eq (b t : Nat) (hb : b ≤ 255) (ht : t ≤ 255) :
    ((easeBrightness b t : Nat) : Int) =
      if b < t then min ((b : Int) + 2) (t : Int)
      else if b > t then max ((b : Int) - 2) (t : Int)
      else (b : Int) := by
  unfold easeBrightness
  dsimp only
  split_ifs <;> omega

/-- Easing at the target does nothing. -/
theorem easeBrightness_self (t : Nat) : easeBrightness t t = t := by
  simp [easeBrightness]

/-- An eased `uint8_t` value is again a `uint8_t` value. -/
theorem easeBrightness_le (b t : Nat) (hb : b ≤ 255) (ht : t ≤ 255) :
    easeBrightness b t ≤ 255 := by
  have h := easeBrightness_eq b t hb ht
  split_ifs at h <;> omega

/-- The gate predicate of the model agrees with the comparison modulo `2^32`. -/
theorem eligible_iff (state : State) (now : Nat) :
    eligible state now = true ↔
      (kAnimationFrameMs : Int) ≤ ((now : Int) - (state.lastFrameMs : Int)) % 4294967296 := by
  have hs := sub32_eq_emod now state.lastFrameMs
  simp only [eligible, kAnimationFrameMs, Bool.not_eq_true', decide_eq_false_iff_not]
  omega

/-- State left by an eligible call. -/
theorem update_state_of_eligible (numPixels : Nat) (rand : Nat → Nat) (now : Nat)
    (state : State) (targetBrightness colorPercent : Nat)
    (h : eligible state now = true) :
    (update numPixels rand now state targetBrightness colorPercent).state =
      { baseBrightness := easeBrightness state.baseBrightness targetBrightness
        lastFrameMs := now } := by
  have h35 : 35 ≤ ((now : Int) - (state.lastFrameMs : Int)) % 4294967296 := by
    simpa [kAnimationFrameMs] using (eligible_iff state now).1 h
  rw [update_of_eligible numPixels rand now state targetBrightness colorPercent h35]

/-- Brightness after a run of eligible frames: easing iterated once per frame. -/
theorem runFrames_baseBrightness (numPixels targetBrightness : Nat) (frames : List Frame) :
    ∀ state : State, allEligible numPixels targetBrightness state frames = true →
      (runFrames numPixels targetBrightness state frames).baseBrightness =
        (fun b => easeBrightness b targetBrightness)^[frames.length] state.baseBrightness := by
  induction frames with
  | nil => intro state _; rfl
  | cons f fs ih =>
    intro state h
    simp only [allEligible, Bool.and_eq_true] at h
    have hst := update_state_of_eligible numPixels f.rand f.now state targetBrightness
      f.colorPercent h.1
    simp only [runFrames, List.length_cons, Function.iterate_succ, Function.comp_apply]
    rw [ih _ h.2, hst]

/-- Closed form of iterated easing on `uint8_t` values. -/
theorem iterate_easeBrightness (t : Nat) (ht : t ≤ 255) (n : Nat) :
    ∀ b : Nat, b ≤ 255 →
      (((fun b => easeBrightness b t)^[n] b : Nat) : Int) =
        if |(t : Int) - (b : Int)| ≤ 2 * (n : Int) then (t : Int)
        else if b < t then (b : Int) + 2 * (n : Int)
        else (b : Int) - 2 * (n : Int) := by
  induction n with
  | zero =>
    intro b _
    simp only [Function.iterate_zero, id_eq, Nat.cast_zero, mul_zero]
    split_ifs with h1 h2
    · have := abs_nonpos_iff.1 h1
      omega
    · simp
    · simp
  | succ n ih =>
    intro b hb
    have hstep := easeBrightness_eq b t hb ht
    have hle := easeBrightness_le b t hb ht
    rw [Function.iterate_succ, Function.comp_apply, ih _ hle]
    have habs1 := abs_le (a := (t : Int) - (easeBrightness b t : Int)) (b := 2 * (n : Int))
    have habs2 := abs_le (a := (t : Int) - (b : Int)) (b := 2 * ((n + 1 : Nat) : Int))
    push_cast at habs2 ⊢
    split_ifs at hstep ⊢ <;> omega

end FireAnimation

namespace FireAnimation

open FireplaceConfig

/-- C4: one eligible `update` moves `baseBrightness` by 2 toward the target
without overshooting: the new value is `min(b+2, t)` when `b < t`,
`max(b-2, t)` when `b > t` and `b` when `b = t`; it lies between `b` and `t`,
the remaining distance is `max(|t - b| - 2, 0)`, and the stored `uint8_t` is
that value for all `b`, `t` in 0..255 (no 8-bit wraparound). -/
theorem ease_step_never_overshoots (numPixels : Nat) (rand : Nat → Nat) (now : Nat)
    (state : State) (targetBrightness colorPercent : Nat)
    (hb : state.baseBrightness ≤ 255) (ht : targetBrightness ≤ 255)
    (h : (kAnimationFrameMs : Int) ≤ ((now : Int) - (state.lastFrameMs : Int)) % 4294967296) :
    let b : Int := (state.baseBrightness : Int)
    let t : Int := (targetBrightness : Int)
    let b' : Int :=
      ((update numPixels rand now state targetBrightness colorPercent).state.baseBrightness : Int)
    (b < t → b' = min (b + 2) t) ∧ (b > t → b' = max (b - 2) t) ∧ (b = t → b' = b) ∧
    min b t ≤ b' ∧ b' ≤ max b t ∧ |t - b'| = max (|t - b| - 2) 0 := by
  intro b t b'
  have hst := update_state_of_eligible numPixels rand now state targetBrightness colorPercent
    ((eligible_iff state now).2 h)
  have hb' : b' = ((easeBrightness state.baseBrightness targetBrightness : Nat) : Int) := by
    show (((update numPixels rand now state targetBrightness colorPercent).state.baseBrightness
      : Nat) : Int) = _
    rw [hst]
  have hstep := easeBrightness_eq state.baseBrightness targetBrightness hb ht
  rw [← hb'] at hstep
  have hbnat : b = (state.baseBrightness : Int) := rfl
  have htnat : t = (targetBrightness : Int) := rfl
  rw [← hbnat, ← htnat] at hstep
  have hb0 : 0 ≤ b := by omega
  have hb255 : b ≤ 255 := by omega
  have ht0 : 0 ≤ t := by omega
  have ht255 : t ≤ 255 := by omega
  clear_value b t b'
  rcases abs_cases (t - b') with ⟨e1, _⟩ | ⟨e1, _⟩ <;>
  rcases abs_cases (t - b) with ⟨e2, _⟩ | ⟨e2, _⟩ <;>
  rw [e1, e2] <;>
  split_ifs at hstep <;>
  refine ⟨?_, ?_, ?_, ?_, ?_, ?_⟩ <;> omega

/-- Witness for C4: from 254 toward 255 the step stops at 255. -/
theorem ease_step_never_overshoots_witness :
    let b : Int := ((254 : Nat) : Int)
    let t : Int := ((255 : Nat) : Int)
    let b' : Int :=
      ((update 4 (fun _ => 90) 35 { baseBrightness := 254, lastFrameMs := 0 } 255 10
        ).state.baseBrightness : Int)
    (b < t → b' = min (b + 2) t) ∧ (b > t → b' = max (b - 2) t) ∧ (b = t → b' = b) ∧
    min b t ≤ b' ∧ b' ≤ max b t ∧ |t - b'| = max (|t - b| - 2) 0 :=
  ease_step_never_overshoots 4 (fun _ => 90) 35 { baseBrightness := 254, lastFrameMs := 0 }
    255 10 (by decide) (by decide) (by decide)

/-- C5: once `baseBrightness` equals the target, any number of eligible
`update` calls with that target leave it equal to the target. -/
theorem ease_idempotent_at_target (numPixels targetBrightness : Nat) (state : State)
    (frames : List Frame)
    (hat : state.baseBrightness = targetBrightness)
    (hel : allEligible numPixels targetBrightness state frames = true) :
    (runFrames numPixels targetBrightness state frames).baseBrightness = targetBrightness := by
  rw [runFrames_baseBrightness numPixels targetBrightness frames state hel, hat]
  exact Function.iterate_fixed (f := fun b => easeBrightness b targetBrightness)
    (easeBrightness_self targetBrightness) frames.length

/-- Witness for C5: three eligible frames at target 100. -/
theorem ease_idempotent_at_target_witness :
    (runFrames 2 100 { baseBrightness := 100, lastFrameMs := 0 }
      [{ now := 35, colorPercent := 0, rand := fun _ => 80 },
       { now := 70, colorPercent := 50, rand := fun _ => 139 },
       { now := 200, colorPercent := 100, rand := fun _ => 100 }]).baseBrightness = 100 :=
  ease_idempotent_at_target 2 100 { baseBrightness := 100, lastFrameMs := 0 }
    [{ now := 35, colorPercent := 0, rand := fun _ => 80 },
     { now := 70, colorPercent := 50, rand := fun _ => 139 },
     { now := 200, colorPercent := 100, rand := fun _ => 100 }] rfl (by decide)

/-- C6: with the target held, after `n` eligible frames `baseBrightness` is
the target when `2n >= |t - b|` and otherwise `b` moved by `2n` toward the
target; from 0 with target 100 it is `min(2n, 100)`. -/
theorem ease_converges_monotonically (numPixels targetBrightness : Nat) (state : State)
    (frames : List Frame)
    (hb : state.baseBrightness ≤ 255) (ht : targetBrightness ≤ 255)
    (hel : allEligible numPixels targetBrightness state frames = true) :
    (((runFrames numPixels targetBrightness state frames).baseBrightness : Nat) : Int) =
        (if |(targetBrightness : Int) - (state.baseBrightness : Int)| ≤ 2 * (frames.length : Int)
          then (targetBrightness : Int)
         else if state.baseBrightness < targetBrightness
          then (state.baseBrightness : Int) + 2 * (frames.length : Int)
         else (state.baseBrightness : Int) - 2 * (frames.length : Int)) ∧
    (state.baseBrightness = 0 → targetBrightness = 100 →
      (runFrames numPixels targetBrightness state frames).baseBrightness =
        min (2 * frames.length) 100) := by
  have hrun := runFrames_baseBrightness numPixels targetBrightness frames state hel
  have hit := iterate_easeBrightness targetBrightness ht frames.length state.baseBrightness hb
  rw [← hrun] at hit
  refine ⟨hit, ?_⟩
  intro h0 h100
  subst h100
  rw [h0] at hit
  simp only [Nat.cast_ofNat, Nat.cast_zero, sub_zero, zero_add,
    abs_of_nonneg (show (0 : Int) ≤ 100 by decide)] at hit
  split_ifs at hit <;> omega

/-- Witness for C6: three eligible frames from 0 toward 100 give 6. -/
theorem ease_converges_monotonically_witness :
    (((runFrames 2 100 { baseBrightness := 0, lastFrameMs := 0 }
        [{ now := 35, colorPercent := 0, rand := fun _ => 80 },
         { now := 70, colorPercent := 50, rand := fun _ => 139 },
         { now := 200, colorPercent := 100, rand := fun _ => 100 }]).baseBrightness : Nat) : Int)
      = 6 ∧
    (runFrames 2 100 { baseBrightness := 0, lastFrameMs := 0 }
        [{ now := 35, colorPercent := 0, rand := fun _ => 80 },
         { now := 70, colorPercent := 50, rand := fun _ => 139 },
         { now := 200, colorPercent := 100, rand := fun _ => 100 }]).baseBrightness
      = min (2 * 3) 100 :=
  ⟨(ease_converges_monotonically 2 100 { baseBrightness := 0, lastFrameMs := 0 }
      [{ now := 35, colorPercent := 0, rand := fun _ => 80 },
       { now := 70, colorPercent := 50, rand := fun _ => 139 },
       { now := 200, colorPercent := 100, rand := fun _ => 100 }]
      (by decide) (by decide) (by decide)).1.trans (by decide),
   (ease_converges_monotonically 2 100 { baseBrightness := 0, lastFrameMs := 0 }
      [{ now := 35, colorPercent := 0, rand := fun _ => 80 },
       { now := 70, colorPercent := 50, rand := fun _ => 139 },
       { now := 200, colorPercent := 100, rand := fun _ => 100 }]
      (by decide) (by decide) (by decide)).2 rfl rfl⟩

end FireAnimation

namespace FireAnimation

open FireplaceConfig

/-! ## Clamping and the rendered pixels -/

/-- The brightness clamp yields 0 or a value of the configured range. -/
theorem clampBrightness_range (value : Int) :
    clampBrightness value = 0 ∨
      (kMinBrightness ≤ clampBrightness value ∧ clampBrightness value ≤ kMaxBrightness) := by
  unfold clampBrightness kMinBrightness kMaxBrightness
  split_ifs <;> omega

/-- The channel clamp yields a value in `[0, 255]`. -/
theorem clampChannel_range (c : Int) : 0 ≤ clampChannel c ∧ clampChannel c ≤ 255 := by
  unfold clampChannel
  dsimp only
  split_ifs <;> omega

/-- A binary32 value with a negative exponent is a quotient of integers. -/
theorem Binary32.toRat_of_neg_exp (x : Binary32) (h : x.exp < 0) :
    x.toRat = (x.mant : ℚ) / ((2 ^ (-x.exp).toNat : Nat) : ℚ) := by
  obtain ⟨n, hn⟩ : ∃ n : Nat, x.exp = -(n : Int) := ⟨(-x.exp).toNat, by omega⟩
  have hn' : (-x.exp).toNat = n := by omega
  rw [Binary32.toRat, hn', hn, zpow_neg, zpow_natCast]
  push_cast
  rw [div_eq_mul_inv]

/-- A binary32 value with a non-negative exponent is an integer. -/
theorem Binary32.toRat_of_nonneg_exp (x : Binary32) (h : 0 ≤ x.exp) :
    x.toRat = ((x.mant * 2 ^ x.exp.toNat : Int) : ℚ) := by
  obtain ⟨n, hn⟩ : ∃ n : Nat, x.exp = (n : Int) := ⟨x.exp.toNat, by omega⟩
  have hn' : x.exp.toNat = n := by omega
  rw [Binary32.toRat, hn', hn, zpow_natCast]
  push_cast
  rfl

/-- The float-to-int conversion of the model is truncation toward zero: the
floor of a non-negative value and the ceiling of a negative one. -/
theorem truncToInt_eq (x : Binary32) :
    truncToInt x = if 0 ≤ x.toRat then ⌊x.toRat⌋ else ⌈x.toRat⌉ := by
  unfold truncToInt
  by_cases hexp : 0 ≤ x.exp
  · rw [if_pos hexp, Binary32.toRat_of_nonneg_exp x hexp]
    split_ifs
    · exact (Int.floor_intCast _).symm
    · exact (Int.ceil_intCast _).symm
  · have hlt : x.exp < 0 := by omega
    rw [if_neg hexp, Binary32.toRat_of_neg_exp x hlt]
    have hdpos : (0 : ℚ) < ((2 ^ (-x.exp).toNat : Nat) : ℚ) := by positivity
    have hdcast : ((2 ^ (-x.exp).toNat : Nat) : Int) = 2 ^ (-x.exp).toNat := by push_cast; rfl
    by_cases hm : 0 ≤ x.mant
    · have hnn : (0 : ℚ) ≤ (x.mant : ℚ) / ((2 ^ (-x.exp).toNat : Nat) : ℚ) :=
        div_nonneg (by exact_mod_cast hm) hdpos.le
      rw [if_pos hnn, Rat.floor_intCast_div_natCast, hdcast,
        Int.tdiv_eq_ediv hm (by positivity)]
    · have hmneg : x.mant < 0 := by omega
      have hneg : ¬ (0 : ℚ) ≤ (x.mant : ℚ) / ((2 ^ (-x.exp).toNat : Nat) : ℚ) := by
        rw [not_le]
        exact div_neg_of_neg_of_pos (by exact_mod_cast hmneg) hdpos
      have hceil : ⌈(x.mant : ℚ) / ((2 ^ (-x.exp).toNat : Nat) : ℚ)⌉ =
          -⌊((-x.mant : Int) : ℚ) / ((2 ^ (-x.exp).toNat : Nat) : ℚ)⌋ := by
        have hb : (((-x.mant : Int) : ℚ)) / ((2 ^ (-x.exp).toNat : Nat) : ℚ) =
            -((x.mant : ℚ) / ((2 ^ (-x.exp).toNat : Nat) : ℚ)) := by
          push_cast
          ring
        rw [hb, Int.floor_neg, neg_neg]
      rw [if_neg hneg, hceil, Rat.floor_intCast_div_natCast, hdcast,
        ← Int.tdiv_eq_ediv (by omega) (by positivity), Int.neg_tdiv, neg_neg]

/-- The calls of an eligible `update`, with the render loop written out. -/
theorem update_calls_of_eligible (numPixels : Nat) (rand : Nat → Nat) (now : Nat)
    (state : State) (targetBrightness colorPercent : Nat)
    (h : (kAnimationFrameMs : Int) ≤ ((now : Int) - (state.lastFrameMs : Int)) % 4294967296) :
    (update numPixels rand now state targetBrightness colorPercent).calls =
      StripCall.setBrightness
          (clampBrightness (easeBrightness state.baseBrightness targetBrightness))
        :: (List.range numPixels).map (fun k =>
            StripCall.setPixelColor k
              (pixelChannels (easeBrightness state.baseBrightness targetBrightness)
                (colorFromPercent colorPercent) (rand k)).1
              (pixelChannels (easeBrightness state.baseBrightness targetBrightness)
                (colorFromPercent colorPercent) (rand k)).2.1
              (pixelChannels (easeBrightness state.baseBrightness targetBrightness)
                (colorFromPercent colorPercent) (rand k)).2.2)
        ++ [StripCall.flush] := by
  have h35 : 35 ≤ ((now : Int) - (state.lastFrameMs : Int)) % 4294967296 := by
    simpa [kAnimationFrameMs] using h
  rw [update_of_eligible numPixels rand now state targetBrightness colorPercent h35,
    renderLoop_eq]
  simp

/-- Every pixel call of `update` carries the channels of `pixelChannels` for
some draw. -/
theorem setPixelColor_mem_update (numPixels : Nat) (rand : Nat → Nat) (now : Nat)
    (state : State) (targetBrightness colorPercent : Nat) (i : Nat) (r g b : Int)
    (hmem : StripCall.setPixelColor i r g b ∈
      (update numPixels rand now state targetBrightness colorPercent).calls) :
    ∃ base draw, (r, g, b) = pixelChannels base (colorFromPercent colorPercent) draw := by
  by_cases h : (kAnimationFrameMs : Int) ≤
      ((now : Int) - (state.lastFrameMs : Int)) % 4294967296
  · rw [update_calls_of_eligible numPixels rand now state targetBrightness colorPercent h] at hmem
    simp only [List.cons_append, List.mem_cons, List.mem_append, List.mem_map, List.mem_range,
      List.mem_singleton, reduceCtorEq, false_or, or_false, StripCall.setPixelColor.injEq,
      List.not_mem_nil] at hmem
    obtain ⟨k, _, _, hr, hg, hb⟩ := hmem
    exact ⟨_, rand k, by rw [← hr, ← hg, ← hb]⟩
  · have h' : ((now : Int) - (state.lastFrameMs : Int)) % 4294967296 < 35 := by
      simp only [kAnimationFrameMs] at h
      omega
    rw [update_of_gated numPixels rand now state targetBrightness colorPercent h'] at hmem
    simp at hmem

end FireAnimation

namespace FireAnimation

open FireplaceConfig

/-- C7, counterexample: one eligible frame from brightness 0 toward target
100 stores `baseBrightness = 2`, which is neither 0 nor in `[10, 255]`. -/
theorem stored_brightness_unclamped_counterexample :
    ((kAnimationFrameMs : Int) ≤ (((35 : Nat) : Int) - ((0 : Nat) : Int)) % 4294967296) ∧
    (update 10 (fun _ => 100) 35 { baseBrightness := 0, lastFrameMs := 0 } 100 0
      ).state.baseBrightness = 2 ∧
    ¬ ((update 10 (fun _ => 100) 35 { baseBrightness := 0, lastFrameMs := 0 } 100 0
        ).state.baseBrightness = 0 ∨
       (kMinBrightness ≤ (update 10 (fun _ => 100) 35 { baseBrightness := 0, lastFrameMs := 0 }
          100 0).state.baseBrightness ∧
        (update 10 (fun _ => 100) 35 { baseBrightness := 0, lastFrameMs := 0 } 100 0
          ).state.baseBrightness ≤ kMaxBrightness)) := by
  have hst : (update 10 (fun _ => 100) 35 { baseBrightness := 0, lastFrameMs := 0 } 100 0
      ).state.baseBrightness = 2 := by decide
  refine ⟨by decide, hst, ?_⟩
  rw [hst]
  decide

/-- C7, amended: after an eligible `update` on `uint8_t` inputs the stored
`baseBrightness` is the eased value, a `uint8_t` between the old brightness
and the target, not clamped to the configured range; the clamp applies to
the value handed to `strip.setBrightness`, which is
`clampBrightness(baseBrightness)` and is 0 or lies in `[10, 255]`. -/
theorem brightness_clamped_at_strip (numPixels : Nat) (rand : Nat → Nat) (now : Nat)
    (state : State) (targetBrightness colorPercent : Nat)
    (hb : state.baseBrightness ≤ 255) (ht : targetBrightness ≤ 255)
    (h : (kAnimationFrameMs : Int) ≤ ((now : Int) - (state.lastFrameMs : Int)) % 4294967296) :
    let out := update numPixels rand now state targetBrightness colorPercent
    out.state.baseBrightness ≤ 255 ∧
    min state.baseBrightness targetBrightness ≤ out.state.baseBrightness ∧
    out.state.baseBrightness ≤ max state.baseBrightness targetBrightness ∧
    StripCall.setBrightness (clampBrightness out.state.baseBrightness) ∈ out.calls ∧
    ∀ v : Nat, StripCall.setBrightness v ∈ out.calls →
      v = clampBrightness out.state.baseBrightness ∧
      (v = 0 ∨ (kMinBrightness ≤ v ∧ v ≤ kMaxBrightness)) := by
  intro out
  have hst : out.state = { baseBrightness := easeBrightness state.baseBrightness targetBrightness
                           lastFrameMs := now } :=
    update_state_of_eligible numPixels rand now state targetBrightness colorPercent
      ((eligible_iff state now).2 h)
  have hcalls := update_calls_of_eligible numPixels rand now state targetBrightness colorPercent h
  have hbb : out.state.baseBrightness = easeBrightness state.baseBrightness targetBrightness := by
    rw [hst]
  have hstep := easeBrightness_eq state.baseBrightness targetBrightness hb ht
  have hmemv : ∀ v : Nat, StripCall.setBrightness v ∈ out.calls →
      v = clampBrightness out.state.baseBrightness := by
    intro v hv
    have hv' : StripCall.setBrightness v ∈
        (update numPixels rand now state targetBrightness colorPercent).calls := hv
    rw [hcalls] at hv'
    simp only [List.cons_append, List.mem_cons, List.mem_append, List.mem_map, List.mem_range,
      List.mem_singleton, reduceCtorEq, false_or, or_false, StripCall.setBrightness.injEq,
      and_false, exists_false, List.not_mem_nil] at hv'
    rw [hbb]
    exact hv'
  refine ⟨?_, ?_, ?_, ?_, ?_⟩
  · rw [hbb]; exact easeBrightness_le _ _ hb ht
  · rw [hbb]; split_ifs at hstep <;> omega
  · rw [hbb]; split_ifs at hstep <;> omega
  · show StripCall.setBrightness (clampBrightness out.state.baseBrightness) ∈
      (update numPixels rand now state targetBrightness colorPercent).calls
    rw [hcalls, hbb]
    exact List.mem_cons_self _ _
  · intro v hv
    refine ⟨hmemv v hv, ?_⟩
    rw [hmemv v hv]
    exact clampBrightness_range _

/-- Witness for C7 (amended): the frame of the counterexample stores 2 and
hands 10 to the strip. -/
theorem brightness_clamped_at_strip_witness :
    let out := update 10 (fun _ => 100) 35 { baseBrightness := 0, lastFrameMs := 0 } 100 0
    out.state.baseBrightness ≤ 255 ∧
    min 0 100 ≤ out.state.baseBrightness ∧
    out.state.baseBrightness ≤ max 0 100 ∧
    StripCall.setBrightness (clampBrightness out.state.baseBrightness) ∈ out.calls ∧
    ∀ v : Nat, StripCall.setBrightness v ∈ out.calls →
      v = clampBrightness out.state.baseBrightness ∧
      (v = 0 ∨ (kMinBrightness ≤ v ∧ v ≤ kMaxBrightness)) :=
  brightness_clamped_at_strip 10 (fun _ => 100) 35 { baseBrightness := 0, lastFrameMs := 0 }
    100 0 (by decide) (by decide) (by decide)

/-- C8: every red, green and blue value that `update` passes to the strip is
an integer in `[0, 255]`, for every brightness, every `colorPercent` (also
above 100) and every flicker value. -/
theorem rendered_channels_valid (numPixels : Nat) (rand : Nat → Nat) (now : Nat)
    (state : State) (targetBrightness colorPercent : Nat) (i : Nat) (r g b : Int)
    (hmem : StripCall.setPixelColor i r g b ∈
      (update numPixels rand now state targetBrightness colorPercent).calls) :
    (0 ≤ r ∧ r ≤ 255) ∧ (0 ≤ g ∧ g ≤ 255) ∧ (0 ≤ b ∧ b ≤ 255) := by
  obtain ⟨base, draw, hrgb⟩ := setPixelColor_mem_update numPixels rand now state
    targetBrightness colorPercent i r g b hmem
  simp only [pixelChannels, Prod.mk.injEq] at hrgb
  obtain ⟨hr, hg, hb⟩ := hrgb
  rw [hr, hg, hb]
  exact ⟨clampChannel_range _, clampChannel_range _, clampChannel_range _⟩

/-- Witness for C8: full brightness, `colorPercent = 250` and flicker 140
write `(0, 249, 255)` to pixel 0: red is clamped from below, blue from above. -/
theorem rendered_channels_valid_witness :
    StripCall.setPixelColor 0 0 249 255 ∈
      (update 1 (fun _ => 140) 35 { baseBrightness := 255, lastFrameMs := 0 } 255 250).calls ∧
    ((0 ≤ (0 : Int) ∧ (0 : Int) ≤ 255) ∧ (0 ≤ (249 : Int) ∧ (249 : Int) ≤ 255) ∧
      (0 ≤ (255 : Int) ∧ (255 : Int) ≤ 255)) :=
  ⟨by decide,
   rendered_channels_valid 1 (fun _ => 140) 35 { baseBrightness := 255, lastFrameMs := 0 }
     255 250 0 0 249 255 (by decide)⟩

end FireAnimation

namespace FireAnimation

open FireplaceConfig

/-- C11: `clampBrightness` is 0 for `v <= 0`, `kMinBrightness` (10) for
`1 <= v < 10`, `kMaxBrightness` (255) for `v > 255` and `v` itself for
`10 <= v <= 255`; hence every brightness that `begin` or `update` hands to
`strip.setBrightness` is 0 or lies in `[10, 255]`, and a stored
`baseBrightness` in 1..9 reaches the strip as 10. -/
theorem clampBrightness_enforces_range (value : Int) (numPixels : Nat) (rand : Nat → Nat)
    (now : Nat) (state : State) (targetBrightness colorPercent initialBrightness v : Nat) :
    (value ≤ 0 → clampBrightness value = 0) ∧
    (1 ≤ value → value < 10 → clampBrightness value = kMinBrightness ∧ kMinBrightness = 10) ∧
    (value > 255 → clampBrightness value = kMaxBrightness ∧ kMaxBrightness = 255) ∧
    (10 ≤ value → value ≤ 255 → ((clampBrightness value : Nat) : Int) = value) ∧
    (StripCall.setBrightness v ∈ begin initialBrightness →
      v = clampBrightness initialBrightness ∧ (v = 0 ∨ (10 ≤ v ∧ v ≤ 255))) ∧
    (StripCall.setBrightness v ∈
        (update numPixels rand now state targetBrightness colorPercent).calls →
      v = clampBrightness
          (update numPixels rand now state targetBrightness colorPercent).state.baseBrightness ∧
      (v = 0 ∨ (10 ≤ v ∧ v ≤ 255)) ∧
      (1 ≤ (update numPixels rand now state targetBrightness colorPercent).state.baseBrightness →
        (update numPixels rand now state targetBrightness colorPercent).state.baseBrightness ≤ 9 →
        v = 10)) := by
  have hrange : ∀ x : Int, clampBrightness x = 0 ∨
      (10 ≤ clampBrightness x ∧ clampBrightness x ≤ 255) := by
    intro x
    simpa [kMinBrightness, kMaxBrightness] using clampBrightness_range x
  have hlow : ∀ x : Int, 1 ≤ x → x ≤ 9 → clampBrightness x = 10 := by
    intro x h1 h9
    unfold clampBrightness kMinBrightness kMaxBrightness
    split_ifs <;> omega
  refine ⟨?_, ?_, ?_, ?_, ?_, ?_⟩
  · intro h
    simp [clampBrightness, h]
  · intro h1 h10
    exact ⟨by rw [hlow value h1 (by omega)]; rfl, rfl⟩
  · intro h
    refine ⟨?_, rfl⟩
    unfold clampBrightness kMinBrightness kMaxBrightness
    split_ifs <;> omega
  · intro h10 h255
    unfold clampBrightness kMinBrightness kMaxBrightness
    split_ifs <;> omega
  · intro hmem
    have hv : v = clampBrightness initialBrightness := by
      simpa [begin] using hmem
    exact ⟨hv, by rw [hv]; exact hrange _⟩
  · intro hmem
    by_cases h : (kAnimationFrameMs : Int) ≤
        ((now : Int) - (state.lastFrameMs : Int)) % 4294967296
    · have hst := update_state_of_eligible numPixels rand now state targetBrightness
        colorPercent ((eligible_iff state now).2 h)
      rw [update_calls_of_eligible numPixels rand now state targetBrightness colorPercent h]
        at hmem
      simp only [List.cons_append, List.mem_cons, List.mem_append, List.mem_map, List.mem_range,
        List.mem_singleton, reduceCtorEq, false_or, or_false, StripCall.setBrightness.injEq,
        and_false, exists_false, List.not_mem_nil] at hmem
      rw [hst]
      refine ⟨hmem, by rw [hmem]; exact hrange _, ?_⟩
      intro h1 h9
      rw [hmem]
      exact hlow _ (by exact_mod_cast h1) (by exact_mod_cast h9)
    · have h' : ((now : Int) - (state.lastFrameMs : Int)) % 4294967296 < 35 := by
        simp only [kAnimationFrameMs] at h
        omega
      rw [update_of_gated numPixels rand now state targetBrightness colorPercent h'] at hmem
      simp at hmem

/-- Witness for C11: the clamp at -3, 5, 300 and 77, and the frame that
eases 0 toward 100, where the stored brightness 2 reaches the strip as 10. -/
theorem clampBrightness_enforces_range_witness :
    clampBrightness (-3) = 0 ∧ clampBrightness 5 = 10 ∧ clampBrightness 300 = 255 ∧
    clampBrightness 77 = 77 ∧
    StripCall.setBrightness 10 ∈ begin 5 ∧
    StripCall.setBrightness 10 ∈
      (update 3 (fun _ => 100) 35 { baseBrightness := 0, lastFrameMs := 0 } 100 0).calls ∧
    (update 3 (fun _ => 100) 35 { baseBrightness := 0, lastFrameMs := 0 } 100 0
      ).state.baseBrightness = 2 ∧
    (10 = 0 ∨ (10 ≤ 10 ∧ 10 ≤ 255)) :=
  ⟨(clampBrightness_enforces_range (-3) 3 (fun _ => 100) 35
      { baseBrightness := 0, lastFrameMs := 0 } 100 0 5 10).1 (by decide),
   by decide, by decide, by decide, by decide, by decide, by decide,
   ((clampBrightness_enforces_range 5 3 (fun _ => 100) 35
      { baseBrightness := 0, lastFrameMs := 0 } 100 0 5 10).2.2.2.2.1 (by decide)).2⟩

/-- C12: for every `initialBrightness` in 0..255, `begin` makes exactly the
calls `strip.begin()`, `strip.setBrightness(clampBrightness(initialBrightness))`,
`strip.show()` in this order; the brightness set is 0 for 0, 10 for 1..9 and
`initialBrightness` otherwise; `show` is called once and no pixel is written. -/
theorem begin_sets_clamped_brightness_and_flushes (initialBrightness : Nat)
    (h : initialBrightness ≤ 255) :
    begin initialBrightness =
      [StripCall.begin, StripCall.setBrightness (clampBrightness initialBrightness),
        StripCall.flush] ∧
    (initialBrightness = 0 → clampBrightness initialBrightness = 0) ∧
    (1 ≤ initialBrightness → initialBrightness ≤ 9 → clampBrightness initialBrightness = 10) ∧
    (10 ≤ initialBrightness → clampBrightness initialBrightness = initialBrightness) ∧
    (begin initialBrightness).count StripCall.flush = 1 ∧
    (∀ (i : Nat) (r g b : Int),
      StripCall.setPixelColor i r g b ∉ begin initialBrightness) := by
  refine ⟨rfl, ?_, ?_, ?_, ?_, ?_⟩
  · intro h0
    simp [clampBrightness, h0]
  · intro h1 h9
    unfold clampBrightness kMinBrightness kMaxBrightness
    split_ifs <;> omega
  · intro h10
    unfold clampBrightness kMinBrightness kMaxBrightness
    split_ifs <;> omega
  · simp [begin, List.count_cons]
  · intro i r g b
    simp [begin]

/-- Witness for C12: `begin` with initial brightness 5 sets brightness 10. -/
theorem begin_sets_clamped_brightness_and_flushes_witness :
    begin 5 = [StripCall.begin, StripCall.setBrightness 10, StripCall.flush] ∧
    (begin 5).count StripCall.flush = 1 :=
  ⟨(begin_sets_clamped_brightness_and_flushes 5 (by decide)).1.trans (by decide),
   (begin_sets_clamped_brightness_and_flushes 5 (by decide)).2.2.2.2.1⟩

end FireAnimation

namespace FireAnimation

open FireplaceConfig

/-- C14: an eligible `update` over `n` pixels makes, in order, one
`setBrightness(clampBrightness(new baseBrightness))`, then `setPixelColor`
for the indices `0, 1, ..., n-1`, each once and in increasing order, then one
`show` as the final call; no index `>= n` is written and no `show` precedes a
pixel write. -/
theorem frame_is_one_flushed_strip_update (numPixels : Nat) (rand : Nat → Nat) (now : Nat)
    (state : State) (targetBrightness colorPercent : Nat)
    (h : (kAnimationFrameMs : Int) ≤ ((now : Int) - (state.lastFrameMs : Int)) % 4294967296) :
    let out := update numPixels rand now state targetBrightness colorPercent
    (∃ colour : Nat → Int × Int × Int,
      out.calls = StripCall.setBrightness (clampBrightness out.state.baseBrightness)
        :: (List.range numPixels).map (fun i =>
            StripCall.setPixelColor i (colour i).1 (colour i).2.1 (colour i).2.2)
        ++ [StripCall.flush]) ∧
    out.calls.length = numPixels + 2 ∧
    out.calls[0]? = some (StripCall.setBrightness (clampBrightness out.state.baseBrightness)) ∧
    (∀ i : Nat, i < numPixels →
      ∃ r g b : Int, out.calls[i + 1]? = some (StripCall.setPixelColor i r g b)) ∧
    out.calls[numPixels + 1]? = some StripCall.flush ∧
    out.calls.count StripCall.flush = 1 ∧
    (∀ (i : Nat) (r g b : Int), StripCall.setPixelColor i r g b ∈ out.calls → i < numPixels) := by
  intro out
  have hst : out.state = { baseBrightness := easeBrightness state.baseBrightness targetBrightness
                           lastFrameMs := now } :=
    update_state_of_eligible numPixels rand now state targetBrightness colorPercent
      ((eligible_iff state now).2 h)
  have hcalls : out.calls = _ :=
    update_calls_of_eligible numPixels rand now state targetBrightness colorPercent h
  have hbb : out.state.baseBrightness = easeBrightness state.baseBrightness targetBrightness := by
    rw [hst]
  refine ⟨⟨fun i => pixelChannels (easeBrightness state.baseBrightness targetBrightness)
      (colorFromPercent colorPercent) (rand i), ?_⟩, ?_, ?_, ?_, ?_, ?_, ?_⟩
  · rw [hcalls, hbb]
  · rw [hcalls]
    simp
  · rw [hcalls, hbb]
    simp
  · intro i hi
    rw [hcalls, List.cons_append, List.getElem?_cons_succ,
      List.getElem?_append_left (by simpa using hi), List.getElem?_map,
      List.getElem?_range hi]
    exact ⟨_, _, _, rfl⟩
  · rw [hcalls, List.cons_append, List.getElem?_cons_succ,
      List.getElem?_append_right (by simp)]
    simp
  · rw [hcalls]
    simp [List.count_cons, List.count_append, List.count_eq_zero]
  · intro i r g b hmem
    rw [hcalls] at hmem
    simp only [List.cons_append, List.mem_cons, List.mem_append, List.mem_map, List.mem_range,
      List.mem_singleton, reduceCtorEq, false_or, or_false, StripCall.setPixelColor.injEq,
      List.not_mem_nil] at hmem
    obtain ⟨k, hk, hki, _⟩ := hmem
    omega

/-- Witness for C14: a frame over three pixels. -/
theorem frame_is_one_flushed_strip_update_witness :
    (update 3 (fun _ => 100) 35 { baseBrightness := 98, lastFrameMs := 0 } 100 0).calls =
      [StripCall.setBrightness 100, StripCall.setPixelColor 0 100 70 25,
        StripCall.setPixelColor 1 100 70 25, StripCall.setPixelColor 2 100 70 25,
        StripCall.flush] ∧
    (update 3 (fun _ => 100) 35 { baseBrightness := 98, lastFrameMs := 0 } 100 0).calls.length
      = 3 + 2 :=
  ⟨by decide,
   (frame_is_one_flushed_strip_update 3 (fun _ => 100) 35
     { baseBrightness := 98, lastFrameMs := 0 } 100 0 (by decide)).2.1⟩

end FireAnimation

namespace FireAnimation

open FireplaceConfig

/-- The call for pixel `i` of an eligible `update`, from the draw number `i`. -/
theorem update_pixel_call (numPixels : Nat) (rand : Nat → Nat) (now : Nat)
    (state : State) (targetBrightness colorPercent : Nat) (i : Nat)
    (h : (kAnimationFrameMs : Int) ≤ ((now : Int) - (state.lastFrameMs : Int)) % 4294967296)
    (hi : i < numPixels) :
    (update numPixels rand now state targetBrightness colorPercent).calls[i + 1]? =
      some (StripCall.setPixelColor i
        (pixelChannels (easeBrightness state.baseBrightness targetBrightness)
          (colorFromPercent colorPercent) (rand i)).1
        (pixelChannels (easeBrightness state.baseBrightness targetBrightness)
          (colorFromPercent colorPercent) (rand i)).2.1
        (pixelChannels (easeBrightness state.baseBrightness targetBrightness)
          (colorFromPercent colorPercent) (rand i)).2.2) := by
  rw [update_calls_of_eligible numPixels rand now state targetBrightness colorPercent h,
    List.cons_append, List.getElem?_cons_succ,
    List.getElem?_append_left (by simpa using hi), List.getElem?_map,
    List.getElem?_range hi]
  rfl

/-- The state left by `update`, as a function of the previous state, the
target and the clock value. -/
theorem update_state_eq (numPixels : Nat) (rand : Nat → Nat) (now : Nat)
    (state : State) (targetBrightness colorPercent : Nat) :
    (update numPixels rand now state targetBrightness colorPercent).state =
      if eligible state now = true then
        { baseBrightness := easeBrightness state.baseBrightness targetBrightness
          lastFrameMs := now }
      else state := by
  by_cases h : eligible state now = true
  · rw [if_pos h]
    exact update_state_of_eligible numPixels rand now state targetBrightness colorPercent h
  · rw [if_neg h]
    have h' : ((now : Int) - (state.lastFrameMs : Int)) % 4294967296 < 35 := by
      have := (eligible_iff state now).not.1 h
      simp only [kAnimationFrameMs] at this
      omega
    rw [update_of_gated numPixels rand now state targetBrightness colorPercent h']

/-- C15: an eligible `update` over `n` pixels draws exactly `n` random
values; the colour written to pixel `i` is computed from the new
`baseBrightness`, `colorPercent` and the draw number `i` only, so replacing
the draw of another pixel `j` leaves it unchanged; and there are draws for
which two pixels of one frame get different colours. -/
theorem flicker_is_per_pixel (numPixels : Nat) (rand : Nat → Nat) (now : Nat)
    (state : State) (targetBrightness colorPercent : Nat) (i j other : Nat)
    (h : (kAnimationFrameMs : Int) ≤ ((now : Int) - (state.lastFrameMs : Int)) % 4294967296)
    (hi : i < numPixels) (hij : j ≠ i) :
    let out := update numPixels rand now state targetBrightness colorPercent
    out.draws = numPixels ∧
    out.calls[i + 1]? = some (StripCall.setPixelColor i
      (pixelChannels out.state.baseBrightness (colorFromPercent colorPercent) (rand i)).1
      (pixelChannels out.state.baseBrightness (colorFromPercent colorPercent) (rand i)).2.1
      (pixelChannels out.state.baseBrightness (colorFromPercent colorPercent) (rand i)).2.2) ∧
    (update numPixels (Function.update rand j other) now state targetBrightness
      colorPercent).calls[i + 1]? = out.calls[i + 1]? ∧
    (∃ draws : Nat → Nat,
      (update 2 draws 35 { baseBrightness := 100, lastFrameMs := 0 } 100 0).calls =
        [StripCall.setBrightness 100, StripCall.setPixelColor 0 80 56 20,
          StripCall.setPixelColor 1 139 97 34, StripCall.flush]) := by
  intro out
  have hst : out.state = { baseBrightness := easeBrightness state.baseBrightness targetBrightness
                           lastFrameMs := now } :=
    update_state_of_eligible numPixels rand now state targetBrightness colorPercent
      ((eligible_iff state now).2 h)
  have hbb : out.state.baseBrightness = easeBrightness state.baseBrightness targetBrightness := by
    rw [hst]
  have h35 : 35 ≤ ((now : Int) - (state.lastFrameMs : Int)) % 4294967296 := by
    simpa [kAnimationFrameMs] using h
  have hpix : out.calls[i + 1]? = _ :=
    update_pixel_call numPixels rand now state targetBrightness colorPercent i h hi
  refine ⟨?_, ?_, ?_, ?_⟩
  · show (update numPixels rand now state targetBrightness colorPercent).draws = numPixels
    rw [update_of_eligible numPixels rand now state targetBrightness colorPercent h35,
      renderLoop_eq]
    simp
  · rw [hbb]
    exact hpix
  · rw [hpix, update_pixel_call numPixels (Function.update rand j other) now state
      targetBrightness colorPercent i h hi, Function.update_noteq (Ne.symm hij)]
  · exact ⟨fun k => if k = 0 then 80 else 139, by decide⟩

/-- Witness for C15: two pixels, draws 80 and 139; changing the draw of
pixel 1 leaves pixel 0 as it was. -/
theorem flicker_is_per_pixel_witness :
    (update 2 (fun k => if k = 0 then 80 else 139) 35
      { baseBrightness := 100, lastFrameMs := 0 } 100 0).draws = 2 ∧
    (update 2 (Function.update (fun k => if k = 0 then 80 else 139) 1 100) 35
        { baseBrightness := 100, lastFrameMs := 0 } 100 0).calls[0 + 1]? =
      (update 2 (fun k => if k = 0 then 80 else 139) 35
        { baseBrightness := 100, lastFrameMs := 0 } 100 0).calls[0 + 1]? :=
  ⟨(flicker_is_per_pixel 2 (fun k => if k = 0 then 80 else 139) 35
      { baseBrightness := 100, lastFrameMs := 0 } 100 0 0 1 100
      (by decide) (by decide) (by decide)).1,
   (flicker_is_per_pixel 2 (fun k => if k = 0 then 80 else 139) 35
      { baseBrightness := 100, lastFrameMs := 0 } 100 0 0 1 100
      (by decide) (by decide) (by decide)).2.2.1⟩

end FireAnimation

namespace FireAnimation

open FireplaceConfig

/-- With brightness 0 every channel of a pixel is 0, whatever the weights
and the draw. -/
theorem pixelChannels_zero (weights : ColorWeights) (draw : Nat) :
    pixelChannels 0 weights draw = (0, 0, 0) := by
  have hmul : ∀ w : Binary32, Binary32.mul (Binary32.ofInt 0) w = { mant := 0, exp := 0 } := by
    intro w
    simp [Binary32.mul, Binary32.ofInt, Binary32.ofDyadic, roundQuotient]
  have htrunc : truncToInt { mant := 0, exp := 0 } = 0 := by decide
  simp [pixelChannels, hmul, htrunc, clampChannel]

/-- C16: when the post-easing `baseBrightness` of an eligible `update` is 0
(as it is for target 0 and previous brightness 0, 1 or 2), the brightness
handed to the strip is 0, not `kMinBrightness`, and every pixel of the frame
is written as `(0, 0, 0)`, for every `colorPercent` and every draw. -/
theorem zero_brightness_is_full_shutoff (numPixels : Nat) (rand : Nat → Nat) (now : Nat)
    (state : State) (targetBrightness colorPercent : Nat)
    (h : (kAnimationFrameMs : Int) ≤ ((now : Int) - (state.lastFrameMs : Int)) % 4294967296) :
    let out := update numPixels rand now state targetBrightness colorPercent
    (out.state.baseBrightness = 0 →
      out.calls = StripCall.setBrightness 0
        :: (List.range numPixels).map (fun i => StripCall.setPixelColor i 0 0 0)
        ++ [StripCall.flush]) ∧
    (targetBrightness = 0 → state.baseBrightness ≤ 2 → out.state.baseBrightness = 0) := by
  intro out
  have hst : out.state = { baseBrightness := easeBrightness state.baseBrightness targetBrightness
                           lastFrameMs := now } :=
    update_state_of_eligible numPixels rand now state targetBrightness colorPercent
      ((eligible_iff state now).2 h)
  have hcalls : out.calls = _ :=
    update_calls_of_eligible numPixels rand now state targetBrightness colorPercent h
  have hbb : out.state.baseBrightness = easeBrightness state.baseBrightness targetBrightness := by
    rw [hst]
  constructor
  · intro h0
    rw [hbb] at h0
    rw [hcalls, h0]
    simp [pixelChannels_zero, clampBrightness]
  · intro ht hb
    rw [hbb, ht]
    have hstep := easeBrightness_eq state.baseBrightness 0 (by omega) (by decide)
    split_ifs at hstep <;> omega

/-- Witness for C16: from brightness 2 with target 0, on three pixels. -/
theorem zero_brightness_is_full_shutoff_witness :
    (update 3 (fun _ => 139) 35 { baseBrightness := 2, lastFrameMs := 0 } 0 100
      ).state.baseBrightness = 0 ∧
    (update 3 (fun _ => 139) 35 { baseBrightness := 2, lastFrameMs := 0 } 0 100).calls =
      StripCall.setBrightness 0
        :: (List.range 3).map (fun i => StripCall.setPixelColor i 0 0 0)
        ++ [StripCall.flush] :=
  ⟨(zero_brightness_is_full_shutoff 3 (fun _ => 139) 35
      { baseBrightness := 2, lastFrameMs := 0 } 0 100 (by decide)).2 rfl (by decide),
   (zero_brightness_is_full_shutoff 3 (fun _ => 139) 35
      { baseBrightness := 2, lastFrameMs := 0 } 0 100 (by decide)).1 (by decide)⟩

/-- C18: the state left by `update` does not depend on `colorPercent`, on the
random draws or on the number of pixels: it is a function of the previous
state, `targetBrightness` and `now` alone, and on an eligible call
`lastFrameMs` becomes `now`. -/
theorem state_independent_of_colour_draws_pixels (numPixels numPixels2 : Nat)
    (rand rand2 : Nat → Nat) (now : Nat) (state : State)
    (targetBrightness colorPercent colorPercent2 : Nat) :
    (update numPixels rand now state targetBrightness colorPercent).state =
      (update numPixels2 rand2 now state targetBrightness colorPercent2).state ∧
    (update numPixels rand now state targetBrightness colorPercent).state =
      (if (kAnimationFrameMs : Int) ≤ ((now : Int) - (state.lastFrameMs : Int)) % 4294967296
       then { baseBrightness := easeBrightness state.baseBrightness targetBrightness
              lastFrameMs := now }
       else state) ∧
    ((kAnimationFrameMs : Int) ≤ ((now : Int) - (state.lastFrameMs : Int)) % 4294967296 →
      (update numPixels rand now state targetBrightness colorPercent).state.lastFrameMs = now) := by
  have hfun := update_state_eq numPixels rand now state targetBrightness colorPercent
  have hfun2 := update_state_eq numPixels2 rand2 now state targetBrightness colorPercent2
  refine ⟨hfun.trans hfun2.symm, ?_, ?_⟩
  · rw [hfun]
    by_cases h : eligible state now = true
    · rw [if_pos h, if_pos ((eligible_iff state now).1 h)]
    · rw [if_neg h, if_neg (fun hc => h ((eligible_iff state now).2 hc))]
  · intro h
    rw [hfun, if_pos ((eligible_iff state now).2 h)]

/-- Witness for C18: an eligible call at time 35 with two different colours,
draw sequences and strip sizes. -/
theorem state_independent_of_colour_draws_pixels_witness :
    (update 3 (fun _ => 80) 35 { baseBrightness := 40, lastFrameMs := 0 } 100 0).state =
      (update 14 (fun _ => 139) 35 { baseBrightness := 40, lastFrameMs := 0 } 100 100).state ∧
    (update 3 (fun _ => 80) 35 { baseBrightness := 40, lastFrameMs := 0 } 100 0
      ).state.lastFrameMs = 35 :=
  ⟨(state_independent_of_colour_draws_pixels 3 14 (fun _ => 80) (fun _ => 139) 35
      { baseBrightness := 40, lastFrameMs := 0 } 100 0 100).1,
   (state_independent_of_colour_draws_pixels 3 14 (fun _ => 80) (fun _ => 139) 35
      { baseBrightness := 40, lastFrameMs := 0 } 100 0 100).2.2 (by decide)⟩

end FireAnimation

namespace FireAnimation

open FireplaceConfig

/-! ## Binary32 blend weights -/

/-- A binary32 value with exponent at least `-31`, in units of `2^-31`. -/
theorem Binary32.toRat_eq_div (x : Binary32) (h : -31 ≤ x.exp) :
    x.toRat = ((x.mant * 2 ^ (x.exp + 31).toNat : Int) : ℚ) / 2 ^ 31 := by
  obtain ⟨k, hk⟩ : ∃ k : Nat, (k : Int) = x.exp + 31 := ⟨(x.exp + 31).toNat, by omega⟩
  have hexp : x.exp = (k : Int) - 31 := by omega
  have hk' : (x.exp + 31).toNat = k := by omega
  rw [Binary32.toRat, hk', hexp, zpow_sub₀ (by norm_num : (2 : ℚ) ≠ 0), zpow_natCast]
  push_cast
  norm_num
  ring

/-- Comparison of two binary32 values through their multiples of `2^-31`. -/
theorem Binary32.toRat_le_iff (x y : Binary32) (hx : -31 ≤ x.exp) (hy : -31 ≤ y.exp) :
    x.toRat ≤ y.toRat ↔
      x.mant * 2 ^ (x.exp + 31).toNat ≤ y.mant * 2 ^ (y.exp + 31).toNat := by
  rw [Binary32.toRat_eq_div x hx, Binary32.toRat_eq_div y hy,
    div_le_div_iff_of_pos_right (by positivity : (0 : ℚ) < 2 ^ 31)]
  exact Int.cast_le

/-- Equality of two binary32 values through their multiples of `2^-31`. -/
theorem Binary32.toRat_eq_iff (x y : Binary32) (hx : -31 ≤ x.exp) (hy : -31 ≤ y.exp) :
    x.toRat = y.toRat ↔
      x.mant * 2 ^ (x.exp + 31).toNat = y.mant * 2 ^ (y.exp + 31).toNat := by
  rw [Binary32.toRat_eq_div x hx, Binary32.toRat_eq_div y hy,
    div_left_inj' (by positivity : (2 : ℚ) ^ 31 ≠ 0)]
  exact Int.cast_inj

set_option maxRecDepth 1000000 in
/-- The binary32 weights for `colorPercent` 0..100, in units of `2^-31`:
exponents, the constant green weight, the bounds `2^29` (0.25) and `2^31`
(1.0), and red different from blue. -/
theorem binary32_weights_table :
    ∀ p < 101,
      -31 ≤ (colorFromPercent p).red.exp ∧
      -31 ≤ (colorFromPercent p).blue.exp ∧
      (colorFromPercent p).green = { mant := 11744051, exp := -24 } ∧
      536870912 ≤ (colorFromPercent p).red.mant
        * 2 ^ ((colorFromPercent p).red.exp + 31).toNat ∧
      (colorFromPercent p).red.mant
        * 2 ^ ((colorFromPercent p).red.exp + 31).toNat ≤ 2147483648 ∧
      536870912 ≤ (colorFromPercent p).blue.mant
        * 2 ^ ((colorFromPercent p).blue.exp + 31).toNat ∧
      (colorFromPercent p).blue.mant
        * 2 ^ ((colorFromPercent p).blue.exp + 31).toNat ≤ 2147483648 ∧
      (colorFromPercent p).red.mant
        * 2 ^ ((colorFromPercent p).red.exp + 31).toNat ≠
      (colorFromPercent p).blue.mant
        * 2 ^ ((colorFromPercent p).blue.exp + 31).toNat := by
  decide!

set_option maxRecDepth 1000000 in
/-- From one `colorPercent` to the next, up to 100, the binary32 red weight
does not grow and the blue weight does not shrink (units of `2^-31`). -/
theorem binary32_weights_step :
    ∀ p < 100,
      (colorFromPercent (p + 1)).red.mant
        * 2 ^ ((colorFromPercent (p + 1)).red.exp + 31).toNat ≤
      (colorFromPercent p).red.mant
        * 2 ^ ((colorFromPercent p).red.exp + 31).toNat ∧
      (colorFromPercent p).blue.mant
        * 2 ^ ((colorFromPercent p).blue.exp + 31).toNat ≤
      (colorFromPercent (p + 1)).blue.mant
        * 2 ^ ((colorFromPercent (p + 1)).blue.exp + 31).toNat := by
  decide!

end FireAnimation

namespace FireAnimation

open FireplaceConfig

set_option maxRecDepth 1000000 in
/-- Distance between the binary32 and the exact weights for `colorPercent`
0..100, in units of `2^-31` and cleared of denominators: at most `2^-24`;
and green is never above both red and blue. -/
theorem binary32_weights_error_table :
    ∀ p < 101,
      |200 * ((colorFromPercent p).red.mant
          * 2 ^ ((colorFromPercent p).red.exp + 31).toNat)
        - (200 - (p : Int)) * 2147483648| ≤ 200 * 128 ∧
      |400 * ((colorFromPercent p).blue.mant
          * 2 ^ ((colorFromPercent p).blue.exp + 31).toNat)
        - (100 + 3 * (p : Int)) * 2147483648| ≤ 400 * 128 ∧
      ¬ ((colorFromPercent p).red.mant
            * 2 ^ ((colorFromPercent p).red.exp + 31).toNat < 11744051 * 128 ∧
          (colorFromPercent p).blue.mant
            * 2 ^ ((colorFromPercent p).blue.exp + 31).toNat < 11744051 * 128) := by
  decide!

/-- The weights the code computes are within `2^-24` of the exact
interpolation, per channel, for `colorPercent` 0..100. -/
theorem binary32_weights_close_to_exact (p : Nat) (hp : p ≤ 100) :
    |(colorFromPercent p).red.toRat - (colorFromPercentExact p).red| ≤ 1 / 16777216 ∧
    |(colorFromPercent p).green.toRat - (colorFromPercentExact p).green| ≤ 1 / 16777216 ∧
    |(colorFromPercent p).blue.toRat - (colorFromPercentExact p).blue| ≤ 1 / 16777216 := by
  have hp' : p < 101 := by omega
  obtain ⟨hre, hbe, hg, _, _, _, _, _⟩ := binary32_weights_table p hp'
  obtain ⟨her, heb, _⟩ := binary32_weights_error_table p hp'
  have her' := abs_le.1 her
  have heb' := abs_le.1 heb
  have hr1 : ((-(200 * 128) : Int) : ℚ) ≤ _ := Int.cast_le.2 her'.1
  have hr2 : _ ≤ (((200 * 128) : Int) : ℚ) := Int.cast_le.2 her'.2
  have hb1 : ((-(400 * 128) : Int) : ℚ) ≤ _ := Int.cast_le.2 heb'.1
  have hb2 : _ ≤ (((400 * 128) : Int) : ℚ) := Int.cast_le.2 heb'.2
  push_cast at hr1 hr2 hb1 hb2
  refine ⟨?_, ?_, ?_⟩
  · rw [Binary32.toRat_eq_div _ hre, abs_le]
    simp only [colorFromPercentExact]
    push_cast
    constructor
    · rw [← sub_nonneg]
      have : (0 : ℚ) ≤ (200 * (((colorFromPercent p).red.mant : ℚ)
          * 2 ^ ((colorFromPercent p).red.exp + 31).toNat)
        - (200 - (p : ℚ)) * 2147483648 + 200 * 128) / (200 * 2147483648) := by
        apply div_nonneg _ (by norm_num)
        linarith
      convert this using 1
      ring
    · rw [← sub_nonneg]
      have : (0 : ℚ) ≤ (200 * 128 - (200 * (((colorFromPercent p).red.mant : ℚ)
          * 2 ^ ((colorFromPercent p).red.exp + 31).toNat)
        - (200 - (p : ℚ)) * 2147483648)) / (200 * 2147483648) := by
        apply div_nonneg _ (by norm_num)
        linarith
      convert this using 1
      ring
  · rw [hg]
    simp only [colorFromPercentExact]
    norm_num [Binary32.toRat, abs_le]
  · rw [Binary32.toRat_eq_div _ hbe, abs_le]
    simp only [colorFromPercentExact]
    push_cast
    constructor
    · rw [← sub_nonneg]
      have : (0 : ℚ) ≤ (400 * (((colorFromPercent p).blue.mant : ℚ)
          * 2 ^ ((colorFromPercent p).blue.exp + 31).toNat)
        - (100 + 3 * (p : ℚ)) * 2147483648 + 400 * 128) / (400 * 2147483648) := by
        apply div_nonneg _ (by norm_num)
        linarith
      convert this using 1
      ring
    · rw [← sub_nonneg]
      have : (0 : ℚ) ≤ (400 * 128 - (400 * (((colorFromPercent p).blue.mant : ℚ)
          * 2 ^ ((colorFromPercent p).blue.exp + 31).toNat)
        - (100 + 3 * (p : ℚ)) * 2147483648)) / (400 * 2147483648) := by
        apply div_nonneg _ (by norm_num)
        linarith
      convert this using 1
      ring

end FireAnimation

namespace FireAnimation

open FireplaceConfig

/-- C9, counterexample: the weights the code returns are floats, not the
real numbers of the formula: the green weight at 0 is `0.7f`, which is
`11744051 * 2^-24` and not `0.7`, and the red weight at 1 is
`16693330 * 2^-24` and not `1.0 - 0.5 * 1 / 100 = 0.995`. -/
theorem blend_weights_not_exact_counterexample :
    (colorFromPercent 0).green.toRat = 11744051 / 16777216 ∧
    (colorFromPercent 0).green.toRat ≠ 0.7 ∧
    (colorFromPercent 1).red.toRat = 16693330 / 16777216 ∧
    (colorFromPercent 1).red.toRat ≠ 1.0 - 0.5 * ((1 : Nat) : ℚ) / 100 := by
  have h0 : (colorFromPercent 0).green = { mant := 11744051, exp := -24 } := by decide
  have h1 : (colorFromPercent 1).red = { mant := 16693330, exp := -24 } := by decide
  rw [h0, h1]
  refine ⟨?_, ?_, ?_, ?_⟩ <;> norm_num [Binary32.toRat]

/-- C9, amended: for `colorPercent` 0..100 the weights returned are the
binary32 evaluation of the linear interpolation between warm and cool: red
is within `2^-24` of `1.0 - 0.5*p/100`, blue within `2^-24` of
`0.25 + 0.75*p/100`, green is the float `0.7f = 11744051 * 2^-24`, itself
within `2^-24` of `0.7`; at 0, 100 and 50 red and blue are exactly
`(1.0, 0.25)`, `(0.5, 1.0)` and `(0.75, 0.625)`, and each channel at 50 is
the arithmetic midpoint of its values at 0 and 100. -/
theorem colorFromPercent_blend_within_rounding (p : Nat) (hp : p ≤ 100) :
    |(colorFromPercent p).red.toRat - (1.0 - 0.5 * (p : ℚ) / 100)| ≤ 1 / 16777216 ∧
    (colorFromPercent p).green.toRat = 11744051 / 16777216 ∧
    |(colorFromPercent p).green.toRat - 0.7| ≤ 1 / 16777216 ∧
    |(colorFromPercent p).blue.toRat - (0.25 + 0.75 * (p : ℚ) / 100)| ≤ 1 / 16777216 ∧
    ((colorFromPercent 0).red.toRat = 1.0 ∧ (colorFromPercent 0).blue.toRat = 0.25) ∧
    ((colorFromPercent 100).red.toRat = 0.5 ∧ (colorFromPercent 100).blue.toRat = 1.0) ∧
    ((colorFromPercent 50).red.toRat = 0.75 ∧ (colorFromPercent 50).blue.toRat = 0.625) ∧
    (colorFromPercent 50).red.toRat
      = ((colorFromPercent 0).red.toRat + (colorFromPercent 100).red.toRat) / 2 ∧
    (colorFromPercent 50).green.toRat
      = ((colorFromPercent 0).green.toRat + (colorFromPercent 100).green.toRat) / 2 ∧
    (colorFromPercent 50).blue.toRat
      = ((colorFromPercent 0).blue.toRat + (colorFromPercent 100).blue.toRat) / 2 := by
  obtain ⟨hr, hg, hb⟩ := binary32_weights_close_to_exact p hp
  obtain ⟨_, _, hgp, _, _, _, _, _⟩ := binary32_weights_table p (by omega)
  have h0 : colorFromPercent 0 =
      { red := { mant := 8388608, exp := -23 }
        green := { mant := 11744051, exp := -24 }
        blue := { mant := 8388608, exp := -25 } } := by decide
  have h50 : colorFromPercent 50 =
      { red := { mant := 12582912, exp := -24 }
        green := { mant := 11744051, exp := -24 }
        blue := { mant := 10485760, exp := -24 } } := by decide
  have h100 : colorFromPercent 100 =
      { red := { mant := 8388608, exp := -24 }
        green := { mant := 11744051, exp := -24 }
        blue := { mant := 8388608, exp := -23 } } := by decide
  simp only [colorFromPercentExact] at hr hg hb
  refine ⟨?_, ?_, ?_, ?_, ?_, ?_, ?_, ?_, ?_, ?_⟩
  · have he : (1.0 - 0.5 * (p : ℚ) / 100) = 1 + (1 / 2 - 1) * ((p : ℚ) / 100) := by
      norm_num
      ring
    rw [he]
    exact hr
  · rw [hgp]
    norm_num [Binary32.toRat]
  · have he : (0.7 : ℚ) = 7 / 10 + (7 / 10 - 7 / 10) * ((p : ℚ) / 100) := by norm_num
    rw [he]
    exact hg
  · have he : (0.25 + 0.75 * (p : ℚ) / 100) = 1 / 4 + (1 - 1 / 4) * ((p : ℚ) / 100) := by
      norm_num
      ring
    rw [he]
    exact hb
  all_goals
    simp only [h0, h50, h100]
    norm_num [Binary32.toRat]

/-- Witness for C9 (amended): `colorPercent = 66`. -/
theorem colorFromPercent_blend_within_rounding_witness :
    |(colorFromPercent 66).red.toRat - (1.0 - 0.5 * ((66 : Nat) : ℚ) / 100)| ≤ 1 / 16777216 ∧
    (colorFromPercent 66).green.toRat = 11744051 / 16777216 ∧
    |(colorFromPercent 66).blue.toRat - (0.25 + 0.75 * ((66 : Nat) : ℚ) / 100)|
      ≤ 1 / 16777216 :=
  ⟨(colorFromPercent_blend_within_rounding 66 (by decide)).1,
   (colorFromPercent_blend_within_rounding 66 (by decide)).2.1,
   (colorFromPercent_blend_within_rounding 66 (by decide)).2.2.2.1⟩

/-- C10, counterexample: with post-easing brightness 5, flicker 110 and
`colorPercent = 50` (red weight 0.75) the red value written is 3, while
`5 * 110/100 * 0.75 = 4.125` truncated once and clamped is 4, both when the
formula is evaluated in float and in exact arithmetic. -/
theorem render_single_truncation_counterexample :
    ((kAnimationFrameMs : Int) ≤ (((35 : Nat) : Int) - ((0 : Nat) : Int)) % 4294967296) ∧
    (update 1 (fun _ => 110) 35 { baseBrightness := 5, lastFrameMs := 0 } 5 50
      ).state.baseBrightness = 5 ∧
    (update 1 (fun _ => 110) 35 { baseBrightness := 5, lastFrameMs := 0 } 5 50).calls =
      [StripCall.setBrightness 10, StripCall.setPixelColor 0 3 3 3, StripCall.flush] ∧
    (colorFromPercent 50).red.toRat = 3 / 4 ∧
    clampChannel (truncToInt (Binary32.mul
      (Binary32.div (Binary32.mul (Binary32.ofInt 5) (Binary32.ofInt 110)) (Binary32.ofInt 100))
      (colorFromPercent 50).red)) = 4 ∧
    clampChannel ⌊(5 : ℚ) * 110 / 100 * (3 / 4)⌋ = 4 ∧
    (update 1 (fun _ => 110) 35 { baseBrightness := 5, lastFrameMs := 0 } 5 50).calls[1]? ≠
      some (StripCall.setPixelColor 0
        (clampChannel (truncToInt (Binary32.mul
          (Binary32.div (Binary32.mul (Binary32.ofInt 5) (Binary32.ofInt 110))
            (Binary32.ofInt 100)) (colorFromPercent 50).red)))
        (clampChannel (truncToInt (Binary32.mul
          (Binary32.div (Binary32.mul (Binary32.ofInt 5) (Binary32.ofInt 110))
            (Binary32.ofInt 100)) (colorFromPercent 50).green)))
        (clampChannel (truncToInt (Binary32.mul
          (Binary32.div (Binary32.mul (Binary32.ofInt 5) (Binary32.ofInt 110))
            (Binary32.ofInt 100)) (colorFromPercent 50).blue)))) := by
  have hred : (colorFromPercent 50).red = { mant := 12582912, exp := -24 } := by decide
  have hfloor : ⌊(5 : ℚ) * 110 / 100 * (3 / 4)⌋ = 4 := by
    rw [Int.floor_eq_iff]
    norm_num
  refine ⟨by decide, by decide, by decide, ?_, by decide, ?_, by decide⟩
  · rw [hred]
    norm_num [Binary32.toRat]
  · rw [hfloor]
    decide

/-- C10, amended: on an eligible `update` the call for pixel `i` carries, for
each channel with blend weight `w` (a float), the value obtained with two
truncations: the flicker `f` is applied to the post-easing brightness `b`
with integer division, `q = (b * f) / 100`; the integer `q` is converted to
float and multiplied by `w`, the product rounded to binary32; the product is
truncated toward zero and clamped to `[0, 255]`. -/
theorem render_pixel_formula (numPixels : Nat) (rand : Nat → Nat) (now : Nat)
    (state : State) (targetBrightness colorPercent : Nat) (i : Nat)
    (h : (kAnimationFrameMs : Int) ≤ ((now : Int) - (state.lastFrameMs : Int)) % 4294967296)
    (hi : i < numPixels) :
    let out := update numPixels rand now state targetBrightness colorPercent
    let b : Nat := out.state.baseBrightness
    let f : Nat := rand i % 256
    let q : Nat := b * f / 100
    let w := colorFromPercent colorPercent
    out.calls[i + 1]? = some (StripCall.setPixelColor i
      (clampChannel (truncToInt (Binary32.mul (Binary32.ofInt (q : Int)) w.red)))
      (clampChannel (truncToInt (Binary32.mul (Binary32.ofInt (q : Int)) w.green)))
      (clampChannel (truncToInt (Binary32.mul (Binary32.ofInt (q : Int)) w.blue)))) := by
  intro out b f q w
  have hst : out.state = { baseBrightness := easeBrightness state.baseBrightness targetBrightness
                           lastFrameMs := now } :=
    update_state_of_eligible numPixels rand now state targetBrightness colorPercent
      ((eligible_iff state now).2 h)
  have hb : b = easeBrightness state.baseBrightness targetBrightness := by
    show out.state.baseBrightness = _
    rw [hst]
  have hq : ((b : Int) * (f : Int)).tdiv 100 = ((q : Nat) : Int) := by
    show ((b : Int) * (f : Int)).tdiv 100 = ((b * f / 100 : Nat) : Int)
    rw [Int.tdiv_eq_ediv (by positivity) (by decide)]
    push_cast
    rfl
  show (update numPixels rand now state targetBrightness colorPercent).calls[i + 1]? = _
  rw [update_pixel_call numPixels rand now state targetBrightness colorPercent i h hi]
  simp only [pixelChannels, ← hb]
  rw [hq]

/-- Witness for C10 (amended): brightness 100, flicker 100 and
`colorPercent = 66`: the red weight is `11240734 * 2^-24`, the float product
with 100 is `8781823 * 2^-17`, just below 67, and the pixel is written as
`(66, 70, 74)`. -/
theorem render_pixel_formula_witness :
    (update 1 (fun _ => 100) 35 { baseBrightness := 100, lastFrameMs := 0 } 100 66).calls[0 + 1]?
      = some (StripCall.setPixelColor 0 66 70 74) ∧
    Binary32.mul (Binary32.ofInt ((100 * (100 % 256) / 100 : Nat) : Int)) (colorFromPercent 66).red
      = { mant := 8781823, exp := -17 } :=
  ⟨(render_pixel_formula 1 (fun _ => 100) 35 { baseBrightness := 100, lastFrameMs := 0 } 100 66 0
      (by decide) (by decide)).trans (by decide),
   by decide⟩

end FireAnimation

namespace FireAnimation

open FireplaceConfig

/-- C13: the weights of `colorFromPercent` against the header comment
"sweeps the full hue spectrum": green is never strictly the greatest of the
three weights, for `colorPercent` 0..100 in the float values the code
computes and for every `colorPercent` in the exact interpolation; red is
strictly greatest at 0 and blue at 100, and at 60 the three exact weights
are equal. -/
theorem green_weight_never_dominant :
    (∀ p : Nat, ¬ ((colorFromPercentExact p).red < (colorFromPercentExact p).green ∧
      (colorFromPercentExact p).blue < (colorFromPercentExact p).green)) ∧
    (∀ p : Nat, p ≤ 100 →
      ¬ ((colorFromPercent p).red.toRat < (colorFromPercent p).green.toRat ∧
        (colorFromPercent p).blue.toRat < (colorFromPercent p).green.toRat)) ∧
    ((colorFromPercentExact 0).green < (colorFromPercentExact 0).red ∧
      (colorFromPercentExact 0).blue < (colorFromPercentExact 0).red) ∧
    ((colorFromPercentExact 100).red < (colorFromPercentExact 100).blue ∧
      (colorFromPercentExact 100).green < (colorFromPercentExact 100).blue) ∧
    colorFromPercentExact 60 = { red := 7 / 10, green := 7 / 10, blue := 7 / 10 } ∧
    ((colorFromPercent 0).green.toRat < (colorFromPercent 0).red.toRat ∧
      (colorFromPercent 0).blue.toRat < (colorFromPercent 0).red.toRat) ∧
    ((colorFromPercent 100).red.toRat < (colorFromPercent 100).blue.toRat ∧
      (colorFromPercent 100).green.toRat < (colorFromPercent 100).blue.toRat) := by
  have h0 : colorFromPercent 0 =
      { red := { mant := 8388608, exp := -23 }
        green := { mant := 11744051, exp := -24 }
        blue := { mant := 8388608, exp := -25 } } := by decide
  have h100 : colorFromPercent 100 =
      { red := { mant := 8388608, exp := -24 }
        green := { mant := 11744051, exp := -24 }
        blue := { mant := 8388608, exp := -23 } } := by decide
  refine ⟨?_, ?_, ?_, ?_, ?_, ?_, ?_⟩
  · intro p
    simp only [colorFromPercentExact]
    rintro ⟨hr, hb⟩
    linarith
  · intro p hp
    have hp' : p < 101 := by omega
    obtain ⟨hre, hbe, hg, _, _, _, _, _⟩ := binary32_weights_table p hp'
    obtain ⟨_, _, hdom⟩ := binary32_weights_error_table p hp'
    rintro ⟨hr, hb⟩
    rw [hg] at hr hb
    have hge : (-31 : Int) ≤ ({ mant := 11744051, exp := -24 } : Binary32).exp := by decide
    have hr' := not_le.2 hr
    have hb' := not_le.2 hb
    rw [Binary32.toRat_le_iff _ _ hge hre] at hr'
    rw [Binary32.toRat_le_iff _ _ hge hbe] at hb'
    apply hdom
    constructor
    · have := not_le.1 hr'
      simpa using this
    · have := not_le.1 hb'
      simpa using this
  · norm_num [colorFromPercentExact]
  · norm_num [colorFromPercentExact]
  · norm_num [colorFromPercentExact]
  · simp only [h0]
    norm_num [Binary32.toRat]
  · simp only [h100]
    norm_num [Binary32.toRat]

/-- C17, counterexample: no value of the generator makes `random(80, 140)`
yield a flicker of 140; the largest flicker is 139. -/
theorem flicker_140_unattainable_counterexample :
    (¬ ∃ raw : Nat, drawFlicker raw = 140) ∧ (¬ ∃ raw : Nat, random raw 80 140 = 140) ∧
    drawFlicker 59 = 139 ∧ drawFlicker 60 = 80 := by
  refine ⟨?_, ?_, by decide, by decide⟩
  · rintro ⟨raw, h⟩
    simp only [drawFlicker, random] at h
    split_ifs at h <;> omega
  · rintro ⟨raw, h⟩
    simp only [random] at h
    split_ifs at h <;> omega

/-- C17, amended: the flicker drawn for a pixel is an integer in the
half-open range `[80, 140)`, that is 80..139; the narrowing to `uint8_t`
does not change it; 80 and 139 are both attained. -/
theorem flicker_range :
    (∀ raw : Nat, 80 ≤ drawFlicker raw ∧ drawFlicker raw ≤ 139 ∧
      ((drawFlicker raw : Nat) : Int) = random raw 80 140 ∧
      drawFlicker raw = (random raw 80 140).toNat % 256) ∧
    (∃ raw : Nat, drawFlicker raw = 80) ∧ (∃ raw : Nat, drawFlicker raw = 139) := by
  refine ⟨?_, ⟨0, by decide⟩, ⟨59, by decide⟩⟩
  intro raw
  simp only [drawFlicker, random]
  split_ifs <;> omega

end FireAnimation

namespace FireAnimation

open FireplaceConfig

/-- Monotonicity of an integer sequence on `0..100` from its steps. -/
theorem antitone_of_step (f : Nat → Int) (hstep : ∀ p < 100, f (p + 1) ≤ f p)
    (p q : Nat) (hpq : p ≤ q) (hq : q ≤ 100) : f q ≤ f p := by
  induction q with
  | zero =>
    have : p = 0 := by omega
    rw [this]
  | succ n ih =>
    by_cases hp : p = n + 1
    · rw [hp]
    · exact le_trans (hstep n (by omega)) (ih (by omega) (by omega))

/-- In the exact interpolation the red and blue weights coincide at 60 and
only there. -/
theorem exact_red_eq_blue_iff (p : Nat) :
    (colorFromPercentExact p).red = (colorFromPercentExact p).blue ↔ p = 60 := by
  simp only [colorFromPercentExact]
  constructor
  · intro h
    have h60 : (p : ℚ) = 60 := by linarith
    exact_mod_cast h60
  · intro h
    rw [h]
    norm_num

/-- C19, counterexample: evaluated in binary32, at `colorPercent = 60` the
red weight is `11744051 * 2^-24` (the float `0.7f`, equal to the green
weight) and the blue weight is `11744052 * 2^-24`, one unit in the last
place above: `0.75f * 0.6f` is exactly `15099495 * 2^-25`, adding `0.25f`
gives `23488103 * 2^-25`, a tie that rounds to the even neighbour. -/
theorem red_blue_differ_at_60_counterexample :
    colorFromPercent 60 =
      { red := { mant := 11744051, exp := -24 }
        green := { mant := 11744051, exp := -24 }
        blue := { mant := 11744052, exp := -24 } } ∧
    (colorFromPercent 60).red.toRat = 11744051 / 16777216 ∧
    (colorFromPercent 60).blue.toRat = 11744052 / 16777216 ∧
    (colorFromPercent 60).red.toRat ≠ (colorFromPercent 60).blue.toRat := by
  have h60 : colorFromPercent 60 =
      { red := { mant := 11744051, exp := -24 }
        green := { mant := 11744051, exp := -24 }
        blue := { mant := 11744052, exp := -24 } } := by decide!
  rw [h60]
  refine ⟨rfl, ?_, ?_, ?_⟩ <;> norm_num [Binary32.toRat]

/-- C19, amended: for `p <= q <= 100` the binary32 red weight at `q` is at
most the one at `p`, the blue weight at `q` is at least the one at `p`, the
green weight is the float `0.7f = 11744051 * 2^-24` at both, and every
weight lies in `[0.25, 1.0]`; the red and blue weights are never equal: in
exact arithmetic they coincide exactly at 60, where in binary32 red equals
green and blue is `2^-24` above. -/
theorem blend_weights_monotone_bounded (p q : Nat) (hpq : p ≤ q) (hq : q ≤ 100) :
    (colorFromPercent q).red.toRat ≤ (colorFromPercent p).red.toRat ∧
    (colorFromPercent p).blue.toRat ≤ (colorFromPercent q).blue.toRat ∧
    (colorFromPercent p).green.toRat = 11744051 / 16777216 ∧
    (colorFromPercent q).green.toRat = 11744051 / 16777216 ∧
    (1 / 4 ≤ (colorFromPercent p).red.toRat ∧
      (colorFromPercent p).red.toRat ≤ 1) ∧
    (1 / 4 ≤ (colorFromPercent p).green.toRat ∧
      (colorFromPercent p).green.toRat ≤ 1) ∧
    (1 / 4 ≤ (colorFromPercent p).blue.toRat ∧
      (colorFromPercent p).blue.toRat ≤ 1) ∧
    (colorFromPercent p).red.toRat ≠ (colorFromPercent p).blue.toRat ∧
    ((colorFromPercentExact p).red = (colorFromPercentExact p).blue ↔ p = 60) ∧
    (colorFromPercent 60).red.toRat = (colorFromPercent 60).green.toRat ∧
    (colorFromPercent 60).blue.toRat
      = (colorFromPercent 60).green.toRat + 1 / 16777216 := by
  have hp : p < 101 := by omega
  have hq' : q < 101 := by omega
  obtain ⟨hre, hbe, hg, hr1, hr2, hb1, hb2, hne⟩ := binary32_weights_table p hp
  obtain ⟨hreq, hbeq, hgq, _, _, _, _, _⟩ := binary32_weights_table q hq'
  obtain ⟨hre60, hbe60, hg60, _, _, _, _, _⟩ := binary32_weights_table 60 (by decide)
  have hred := antitone_of_step
    (fun k => (colorFromPercent k).red.mant
      * 2 ^ ((colorFromPercent k).red.exp + 31).toNat)
    (fun k hk => (binary32_weights_step k hk).1) p q hpq hq
  have hblue := antitone_of_step
    (fun k => -((colorFromPercent k).blue.mant
      * 2 ^ ((colorFromPercent k).blue.exp + 31).toNat))
    (fun k hk => neg_le_neg (binary32_weights_step k hk).2) p q hpq hq
  have hgval : ({ mant := 11744051, exp := -24 } : Binary32).toRat = 11744051 / 16777216 := by
    norm_num [Binary32.toRat]
  have hcex : colorFromPercent 60 =
      { red := { mant := 11744051, exp := -24 }
        green := { mant := 11744051, exp := -24 }
        blue := { mant := 11744052, exp := -24 } } := by decide!
  refine ⟨?_, ?_, ?_, ?_, ⟨?_, ?_⟩, ⟨?_, ?_⟩, ⟨?_, ?_⟩, ?_, exact_red_eq_blue_iff p, ?_, ?_⟩
  · exact (Binary32.toRat_le_iff _ _ hreq hre).2 hred
  · exact (Binary32.toRat_le_iff _ _ hbe hbeq).2 (neg_le_neg_iff.1 hblue)
  · rw [hg, hgval]
  · rw [hgq, hgval]
  · rw [Binary32.toRat_eq_div _ hre, le_div_iff₀ (by positivity)]
    have : ((536870912 : Int) : ℚ) ≤ _ := Int.cast_le.2 hr1
    norm_num at this ⊢
    linarith
  · rw [Binary32.toRat_eq_div _ hre, div_le_iff₀ (by positivity)]
    have : _ ≤ ((2147483648 : Int) : ℚ) := Int.cast_le.2 hr2
    norm_num at this ⊢
    linarith
  · rw [hg, hgval]; norm_num
  · rw [hg, hgval]; norm_num
  · rw [Binary32.toRat_eq_div _ hbe, le_div_iff₀ (by positivity)]
    have : ((536870912 : Int) : ℚ) ≤ _ := Int.cast_le.2 hb1
    norm_num at this ⊢
    linarith
  · rw [Binary32.toRat_eq_div _ hbe, div_le_iff₀ (by positivity)]
    have : _ ≤ ((2147483648 : Int) : ℚ) := Int.cast_le.2 hb2
    norm_num at this ⊢
    linarith
  · intro heq
    exact hne ((Binary32.toRat_eq_iff _ _ hre hbe).1 heq)
  · rw [hcex]
  · rw [hcex]
    norm_num [Binary32.toRat]

/-- Witness for C19 (amended): `colorPercent` 60 and 100. -/
theorem blend_weights_monotone_bounded_witness :
    (colorFromPercent 100).red.toRat ≤ (colorFromPercent 60).red.toRat ∧
    (colorFromPercent 60).blue.toRat ≤ (colorFromPercent 100).blue.toRat ∧
    (colorFromPercent 60).red.toRat ≠ (colorFromPercent 60).blue.toRat :=
  ⟨(blend_weights_monotone_bounded 60 100 (by decide) (by decide)).1,
   (blend_weights_monotone_bounded 60 100 (by decide) (by decide)).2.1,
   (blend_weights_monotone_bounded 60 100 (by decide) (by decide)).2.2.2.2.2.2.2.1⟩

end FireAnimation
